import Mathlib

set_option maxRecDepth 10000

/-!
Verification of the review-queue admission controller and the
agent-response normalization logic, as a shallow embedding of
`cdk/lib/constructs/review-queue/consumer/handler.py`,
`review-item-processor/model_config.py` and
`review-item-processor/agent.py`.

External AWS calls (SQS visibility changes, Step Functions launches,
error-handler Lambda invocations) are modelled as an effect trace; the
outcomes of external queries are supplied by an environment record.
-/

/-- Decoded queue-message body, the result of `json.loads(message_body)`
followed by `body.get("reviewJobId")` / `body.get("userId")`.  `none`
models an absent key. -/
structure ReviewBody where
  reviewJobId : Option String
  userId : Option String
deriving DecidableEq, Repr

/-- One SQS record as delivered to the Lambda handler.  `messageId` and
`receiptHandle` use `""` for an absent key, mirroring
`message.get("messageId", "")`.  `bodyParse` is the outcome of
`json.loads` on `bodyRaw` (`none` = `JSONDecodeError`), and
`sentTimestamp` models `attributes.SentTimestamp` in milliseconds
(`none` = absent or empty, the falsy cases of the source). -/
structure SqsMessage where
  messageId : String
  receiptHandle : String
  bodyRaw : String
  bodyParse : Option ReviewBody
  sentTimestamp : Option Int
deriving DecidableEq, Repr

/-- Outcome of `sfn_client.start_execution`: success, a `ClientError`
with an error code, or any other exception. -/
inductive LaunchResult where
  | ok
  | clientError (code : String)
  | exn
deriving DecidableEq, Repr

/-- Payload sent to the error-handler Lambda by `handle_queue_timeout`. -/
structure ErrorEvent where
  action : String
  reviewJobId : String
  error : String
  userId : Option String
deriving DecidableEq, Repr

/-- Externally visible actions of the consumer, in the order the source
performs them. `startExecutionOk` records a successful workflow launch
(name = execution name, input = raw message body). -/
inductive QueueEffect where
  | changeVisibility (receiptHandle : String) (timeoutSeconds : Nat)
  | startExecutionOk (name : String) (input : String)
  | invokeError (payload : ErrorEvent)
deriving DecidableEq, Repr

/-- Environment of one handler invocation: configuration constants read
from the environment variables, the current clock, and the outcomes of
the two external calls (`list_executions`, which either returns the
number of RUNNING executions or raises `ClientError`, and
`start_execution` keyed by execution name and input). -/
structure ConsumerEnv where
  ceiling : Nat
  maxQueueWaitMs : Int
  visProcessing : Nat
  visRetry : Nat
  nowMs : Int
  listRunning : Except Unit Nat
  launch : String → String → LaunchResult

/-- Python truthiness of an optional string (`None` and `""` are falsy). -/
def strTruthy : Option String → Bool
  | none => false
  | some s => s ≠ ""

/-- `change_message_visibility`: no call is made when the receipt handle
is empty; otherwise the visibility change is requested (a failing SQS
call is logged and swallowed, so the attempt itself is the effect). -/
def changeVisEffects (receiptHandle : String) (timeoutSeconds : Nat) : List QueueEffect :=
  if receiptHandle = "" then [] else [.changeVisibility receiptHandle timeoutSeconds]

/-- `reschedule_message`: shorten/extend visibility of `m` when it has a
receipt handle. -/
def rescheduleEffects (m : SqsMessage) (timeoutSeconds : Nat) : List QueueEffect :=
  changeVisEffects m.receiptHandle timeoutSeconds

/-- `get_queue_wait_ms`: `0` when `SentTimestamp` is missing, otherwise
now minus the enqueue timestamp (both in milliseconds). -/
def get_queue_wait_ms (nowMs : Int) (m : SqsMessage) : Int :=
  match m.sentTimestamp with
  | none => 0
  | some ts => nowMs - ts

/-- `handle_queue_timeout`: skip entirely when `reviewJobId` is falsy;
otherwise invoke the error Lambda once with the
`handleReviewError` / `QUEUE_TIMEOUT_ERROR` payload, attaching `userId`
only when it is truthy. -/
def handle_queue_timeout (reviewJobId userId : Option String) : List QueueEffect :=
  if strTruthy reviewJobId then
    [.invokeError
      { action := "handleReviewError"
        reviewJobId := reviewJobId.getD ""
        error := "QUEUE_TIMEOUT_ERROR"
        userId := if strTruthy userId then userId else none }]
  else []

/-- `process_message`: returns the boolean the source returns together
with the effect trace of the call.  Branch order follows the source:
poison body, staleness check, visibility extension, missing-id check,
launch with its three outcomes. -/
def process_message (env : ConsumerEnv) (m : SqsMessage) : Bool × List QueueEffect :=
  match m.bodyParse with
  | none => (true, [])
  | some b =>
    if env.maxQueueWaitMs ≤ get_queue_wait_ms env.nowMs m then
      (true, handle_queue_timeout b.reviewJobId b.userId)
    else
      if m.messageId = "" then (true, changeVisEffects m.receiptHandle env.visProcessing)
      else
        match env.launch m.messageId m.bodyRaw with
        | .ok =>
          (true, changeVisEffects m.receiptHandle env.visProcessing ++
            [.startExecutionOk m.messageId m.bodyRaw])
        | .clientError code =>
          if code = "ExecutionAlreadyExists" then
            (true, changeVisEffects m.receiptHandle env.visProcessing)
          else
            (false, changeVisEffects m.receiptHandle env.visProcessing ++
              changeVisEffects m.receiptHandle env.visRetry)
        | .exn =>
          (false, changeVisEffects m.receiptHandle env.visProcessing ++
            changeVisEffects m.receiptHandle env.visRetry)

/-- `get_running_executions_count`: the length of the returned
executions page, or the concurrency ceiling when `list_executions`
raises `ClientError` (fail closed). -/
def get_running_executions_count (env : ConsumerEnv) : Nat :=
  match env.listRunning with
  | .ok n => n
  | .error _ => env.ceiling

/-- `available_slots = max(REVIEW_MAX_CONCURRENCY - running_count, 0)`. -/
def availableSlots (env : ConsumerEnv) : Int :=
  max ((env.ceiling : Int) - (get_running_executions_count env : Int)) 0

/-- The per-batch loop of `lambda_handler`: first component is the
`batchItemFailures` identifiers, second the accumulated effect trace. -/
def consumeBatch (env : ConsumerEnv) : List SqsMessage → Int → List String × List QueueEffect
  | [], _ => ([], [])
  | m :: rest, slots =>
    if slots ≤ 0 then
      ((if m.messageId = "" then [] else [m.messageId]) ++ (consumeBatch env rest slots).1,
        rescheduleEffects m env.visRetry ++ (consumeBatch env rest slots).2)
    else
      if (process_message env m).1 then
        ((consumeBatch env rest (slots - 1)).1,
          (process_message env m).2 ++ (consumeBatch env rest (slots - 1)).2)
      else
        ((if m.messageId = "" then [] else [m.messageId]) ++ (consumeBatch env rest slots).1,
          (process_message env m).2 ++ (consumeBatch env rest slots).2)

/-- `lambda_handler`: empty batches return no failures without querying;
otherwise the running count is queried once and the batch walked in
delivery order. -/
def lambda_handler (env : ConsumerEnv) (messages : List SqsMessage) :
    List String × List QueueEffect :=
  if messages.isEmpty then ([], [])
  else consumeBatch env messages (availableSlots env)

/-- Model configuration record of `model_config.py` (prices are modelled
as rationals; the capability flags are the three booleans the claims are
about). -/
structure ModelConfig where
  model_id : String
  display_name : String
  input_per_1k : ℚ
  output_per_1k : ℚ
  supports_document_block : Bool
  supports_citation : Bool
  supports_caching : Bool
  notes : Option String := none
deriving DecidableEq, Repr

/-- The suffix of a character list after its first `'.'`, `none` when no
dot occurs; models `"." in model_id` plus `model_id.split(".", 1)[-1]`. -/
def afterFirstDotL : List Char → Option (List Char)
  | [] => none
  | c :: r => if c = '.' then some r else afterFirstDotL r

/-- String version of `afterFirstDotL`. -/
def afterFirstDotS (s : String) : Option String :=
  (afterFirstDotL s.toList).map fun l => String.mk l

/-- `_MODEL_REGISTRY` of `model_config.py`, entry for entry. -/
def MODEL_REGISTRY : List (String × ModelConfig) :=
  [ ("us.anthropic.claude-3-7-sonnet-20250219-v1:0",
      { model_id := "us.anthropic.claude-3-7-sonnet-20250219-v1:0"
        display_name := "Claude 3.7 Sonnet (US)"
        input_per_1k := 0.003, output_per_1k := 0.015
        supports_document_block := true, supports_citation := true, supports_caching := true }),
    ("anthropic.claude-3-7-sonnet-20250219-v1:0",
      { model_id := "anthropic.claude-3-7-sonnet-20250219-v1:0"
        display_name := "Claude 3.7 Sonnet"
        input_per_1k := 0.003, output_per_1k := 0.015
        supports_document_block := true, supports_citation := true, supports_caching := true }),
    ("global.anthropic.claude-sonnet-4-20250514-v1:0",
      { model_id := "global.anthropic.claude-sonnet-4-20250514-v1:0"
        display_name := "Claude 4 Sonnet (Global)"
        input_per_1k := 0.003, output_per_1k := 0.015
        supports_document_block := true, supports_citation := true, supports_caching := true }),
    ("us.anthropic.claude-sonnet-4-20250514-v1:0",
      { model_id := "us.anthropic.claude-sonnet-4-20250514-v1:0"
        display_name := "Claude 4 Sonnet (US)"
        input_per_1k := 0.003, output_per_1k := 0.015
        supports_document_block := true, supports_citation := true, supports_caching := true }),
    ("eu.anthropic.claude-sonnet-4-20250514-v1:0",
      { model_id := "eu.anthropic.claude-sonnet-4-20250514-v1:0"
        display_name := "Claude 4 Sonnet (EU)"
        input_per_1k := 0.003, output_per_1k := 0.015
        supports_document_block := true, supports_citation := true, supports_caching := true }),
    ("apac.anthropic.claude-sonnet-4-20250514-v1:0",
      { model_id := "apac.anthropic.claude-sonnet-4-20250514-v1:0"
        display_name := "Claude 4 Sonnet (APAC)"
        input_per_1k := 0.003, output_per_1k := 0.015
        supports_document_block := true, supports_citation := true, supports_caching := true }),
    ("anthropic.claude-sonnet-4-20250514-v1:0",
      { model_id := "anthropic.claude-sonnet-4-20250514-v1:0"
        display_name := "Claude 4 Sonnet"
        input_per_1k := 0.003, output_per_1k := 0.015
        supports_document_block := true, supports_citation := true, supports_caching := true }),
    ("global.anthropic.claude-sonnet-4-5-20250929-v1:0",
      { model_id := "global.anthropic.claude-sonnet-4-5-20250929-v1:0"
        display_name := "Claude 4.5 Sonnet (Global)"
        input_per_1k := 0.003, output_per_1k := 0.015
        supports_document_block := true, supports_citation := true, supports_caching := true }),
    ("us.anthropic.claude-sonnet-4-5-20250929-v1:0",
      { model_id := "us.anthropic.claude-sonnet-4-5-20250929-v1:0"
        display_name := "Claude 4.5 Sonnet (US)"
        input_per_1k := 0.0033, output_per_1k := 0.0165
        supports_document_block := true, supports_citation := true, supports_caching := true }),
    ("eu.anthropic.claude-sonnet-4-5-20250929-v1:0",
      { model_id := "eu.anthropic.claude-sonnet-4-5-20250929-v1:0"
        display_name := "Claude 4.5 Sonnet (EU)"
        input_per_1k := 0.0033, output_per_1k := 0.0165
        supports_document_block := true, supports_citation := true, supports_caching := true }),
    ("jp.anthropic.claude-sonnet-4-5-20250929-v1:0",
      { model_id := "jp.anthropic.claude-sonnet-4-5-20250929-v1:0"
        display_name := "Claude 4.5 Sonnet (JP)"
        input_per_1k := 0.0033, output_per_1k := 0.0165
        supports_document_block := true, supports_citation := true, supports_caching := true }),
    ("anthropic.claude-sonnet-4-5-20250929-v1:0",
      { model_id := "anthropic.claude-sonnet-4-5-20250929-v1:0"
        display_name := "Claude 4.5 Sonnet"
        input_per_1k := 0.003, output_per_1k := 0.015
        supports_document_block := true, supports_citation := true, supports_caching := true }),
    ("global.anthropic.claude-opus-4-5-20251101-v1:0",
      { model_id := "global.anthropic.claude-opus-4-5-20251101-v1:0"
        display_name := "Claude 4.5 Opus (Global)"
        input_per_1k := 0.005, output_per_1k := 0.025
        supports_document_block := true, supports_citation := true, supports_caching := true }),
    ("anthropic.claude-opus-4-20250514-v1:0",
      { model_id := "anthropic.claude-opus-4-20250514-v1:0"
        display_name := "Claude 4 Opus"
        input_per_1k := 0.015, output_per_1k := 0.075
        supports_document_block := true, supports_citation := true, supports_caching := true }),
    ("anthropic.claude-3-5-sonnet-20241022-v2:0",
      { model_id := "anthropic.claude-3-5-sonnet-20241022-v2:0"
        display_name := "Claude 3.5 Sonnet v2"
        input_per_1k := 0.003, output_per_1k := 0.015
        supports_document_block := true, supports_citation := true, supports_caching := true }),
    ("anthropic.claude-3-5-sonnet-20240620-v1:0",
      { model_id := "anthropic.claude-3-5-sonnet-20240620-v1:0"
        display_name := "Claude 3.5 Sonnet v1"
        input_per_1k := 0.003, output_per_1k := 0.015
        supports_document_block := true, supports_citation := false, supports_caching := true }),
    ("anthropic.claude-3-5-haiku-20241022-v1:0",
      { model_id := "anthropic.claude-3-5-haiku-20241022-v1:0"
        display_name := "Claude 3.5 Haiku"
        input_per_1k := 0.001, output_per_1k := 0.005
        supports_document_block := true, supports_citation := false, supports_caching := true }),
    ("anthropic.claude-3-opus-20240229-v1:0",
      { model_id := "anthropic.claude-3-opus-20240229-v1:0"
        display_name := "Claude 3 Opus"
        input_per_1k := 0.015, output_per_1k := 0.075
        supports_document_block := true, supports_citation := false, supports_caching := true }),
    ("anthropic.claude-3-sonnet-20240229-v1:0",
      { model_id := "anthropic.claude-3-sonnet-20240229-v1:0"
        display_name := "Claude 3 Sonnet"
        input_per_1k := 0.003, output_per_1k := 0.015
        supports_document_block := true, supports_citation := false, supports_caching := true }),
    ("anthropic.claude-3-haiku-20240307-v1:0",
      { model_id := "anthropic.claude-3-haiku-20240307-v1:0"
        display_name := "Claude 3 Haiku"
        input_per_1k := 0.00025, output_per_1k := 0.00125
        supports_document_block := true, supports_citation := false, supports_caching := true }),
    ("us.amazon.nova-premier-v1:0",
      { model_id := "us.amazon.nova-premier-v1:0"
        display_name := "Amazon Nova Premier"
        input_per_1k := 0.0025, output_per_1k := 0.0125
        supports_document_block := true, supports_citation := true, supports_caching := false }),
    ("amazon.nova-premier-v1:0",
      { model_id := "amazon.nova-premier-v1:0"
        display_name := "Amazon Nova Premier"
        input_per_1k := 0.0025, output_per_1k := 0.0125
        supports_document_block := true, supports_citation := true, supports_caching := false }),
    ("us.amazon.nova-2-omni-v1:0",
      { model_id := "us.amazon.nova-2-omni-v1:0"
        display_name := "Amazon Nova 2 Omni"
        input_per_1k := 0.0003, output_per_1k := 0.0025
        supports_document_block := true, supports_citation := false, supports_caching := false
        notes := some "Supports document block but not citations (causes InternalServerException)" }),
    ("amazon.nova-2-omni-v1:0",
      { model_id := "amazon.nova-2-omni-v1:0"
        display_name := "Amazon Nova 2 Omni"
        input_per_1k := 0.0003, output_per_1k := 0.0025
        supports_document_block := true, supports_citation := false, supports_caching := false
        notes := some "Supports document block but not citations (causes InternalServerException)" }) ]

/-- Registry lookup, `model_id in _MODEL_REGISTRY` / `_MODEL_REGISTRY[...]`. -/
def regLookup (id : String) : Option ModelConfig :=
  (MODEL_REGISTRY.find? fun kv => kv.1 == id).map Prod.snd

/-- `_DEFAULT_CONFIG`: the conservative all-false capability record. -/
def DEFAULT_CONFIG : ModelConfig :=
  { model_id := "unknown"
    display_name := "Unknown Model"
    input_per_1k := 0, output_per_1k := 0
    supports_document_block := false, supports_citation := false, supports_caching := false }

/-- `ModelConfig.create`: exact registry match, then (when the identifier
contains a dot) the suffix after the first dot, then the default record. -/
def ModelConfig.create (model_id : String) : ModelConfig :=
  match regLookup model_id with
  | some c => c
  | none =>
    match afterFirstDotS model_id with
    | some base =>
      match regLookup base with
      | some c => c
      | none => DEFAULT_CONFIG
    | none => DEFAULT_CONFIG

/-- `CITATION_SUPPORTED_MODELS` of `agent.py`. -/
def CITATION_SUPPORTED_MODELS : List String :=
  [ "anthropic.claude-sonnet-4-20250514-v1:0",
    "anthropic.claude-sonnet-4-5-20250929-v1:0",
    "anthropic.claude-opus-4-20250514-v1:0",
    "anthropic.claude-3-7-sonnet-20250219-v1:0",
    "anthropic.claude-3-5-sonnet-20241022-v2:0" ]

/-- The base identifier `supports_citations` tests:
`model_id.split(".", 1)[-1] if "." in model_id else model_id`. -/
def citationBase (model_id : String) : String :=
  match afterFirstDotS model_id with
  | some base => base
  | none => model_id

/-- `supports_citations` of `agent.py`. -/
def supports_citations (model_id : String) : Bool :=
  decide (citationBase model_id ∈ CITATION_SUPPORTED_MODELS)

/-- `_should_use_citations` of `agent.py`; the global `ENABLE_CITATIONS`
environment flag is passed as a parameter.  `documentPaths` is unused by
the source body and kept for signature fidelity. -/
def should_use_citations (enableCitations : Bool) (documentPaths : List String)
    (model_id : String) (has_images : Bool) : Bool :=
  if has_images then false
  else enableCitations && supports_citations model_id

/-! JSON model for the agent-response claims: a value type mirroring what
`json.loads` produces (objects as insertion-ordered association lists,
numbers as exact decimals), a serializer in the style of `json.dumps`
with its default separators, and a parser modelling `json.loads`. -/

/-- Characters that are special to JSON, by code point. -/
def quoteC : Char := Char.ofNat 34

def bslashC : Char := Char.ofNat 92

def lbraceC : Char := Char.ofNat 123

def rbraceC : Char := Char.ofNat 125

def lbrackC : Char := Char.ofNat 91

def rbrackC : Char := Char.ofNat 93

/-- JSON whitespace accepted between tokens by `json.loads`. -/
def isJsonWs (c : Char) : Bool :=
  c = ' ' || c = '\t' || c = '\n' || c = '\r'

/-- ASCII whitespace stripped by Python's `str.strip()`. -/
def isPyWs (c : Char) : Bool :=
  c = ' ' || c = '\t' || c = '\n' || c = '\r' || c = Char.ofNat 11 || c = Char.ofNat 12

/-- Drop leading JSON whitespace. -/
def skipWs (cs : List Char) : List Char := cs.dropWhile isJsonWs

/-- Python `str.strip()` on a character list. -/
def pyStripL (cs : List Char) : List Char :=
  ((cs.dropWhile isPyWs).reverse.dropWhile isPyWs).reverse

/-- Python `str.strip()`. -/
def pyStrip (s : String) : String := String.mk (pyStripL s.toList)

/-- ASCII decimal digit test. -/
def isDigitC (c : Char) : Bool := 48 ≤ c.toNat && c.toNat ≤ 57

/-- Numeric value of a decimal digit character. -/
def digitVal (c : Char) : Nat := c.toNat - 48

/-- Decimal digit character of a value below 10. -/
def digitChar (d : Nat) : Char := Char.ofNat (48 + d)

/-- Value of a most-significant-first digit string. -/
def digitsToNat (ds : List Char) : Nat := ds.foldl (fun a c => a * 10 + digitVal c) 0

/-- Least-significant-first decimal digits of `n` (with `fuel ≥ n`). -/
def natDigitsAux : Nat → Nat → List Char
  | 0, _ => []
  | fuel + 1, n => if n = 0 then [] else digitChar (n % 10) :: natDigitsAux fuel (n / 10)

/-- Most-significant-first decimal digits of `n`, `['0']` for zero. -/
def natDigits (n : Nat) : List Char :=
  if n = 0 then ['0'] else (natDigitsAux n n).reverse

/-- Lower-case hexadecimal digit character of a value below 16. -/
def hexDigitChar (d : Nat) : Char :=
  if d < 10 then Char.ofNat (48 + d) else Char.ofNat (87 + d)

/-- Value of a hexadecimal digit character, `none` for non-hex input. -/
def hexVal (c : Char) : Option Nat :=
  if 48 ≤ c.toNat ∧ c.toNat ≤ 57 then some (c.toNat - 48)
  else if 97 ≤ c.toNat ∧ c.toNat ≤ 102 then some (c.toNat - 87)
  else if 65 ≤ c.toNat ∧ c.toNat ≤ 70 then some (c.toNat - 55)
  else none

/-- An exact decimal number `mant / 10 ^ scale`, keeping the written
precision so that serialization is the syntactic inverse of parsing. -/
structure JNum where
  mant : Int
  scale : Nat
deriving DecidableEq, Repr

/-- JSON values as Python's `json` module represents them: objects keep
key insertion order. -/
inductive JValue where
  | null
  | bool (b : Bool)
  | num (n : JNum)
  | str (s : String)
  | arr (elems : List JValue)
  | obj (fields : List (String × JValue))

/-- Shorthand for a JSON string value. -/
def jstr (s : String) : JValue := .str s

/-- Python truthiness of a decoded JSON value (`if parsed_json:`):
`None`, `False`, zero, the empty string, the empty list and the empty
dict are falsy. -/
def jtruthy : JValue → Bool
  | .null => false
  | .bool b => b
  | .num n => n.mant ≠ 0
  | .str s => s ≠ ""
  | .arr l => !l.isEmpty
  | .obj l => !l.isEmpty

/-- Escape one character as the canonical JSON serializer does: quote,
backslash and ASCII controls are escaped (named escapes for the common
five, `\u00XX` otherwise); everything else is emitted verbatim. -/
def escChar (c : Char) : List Char :=
  if c = quoteC then [bslashC, quoteC]
  else if c = bslashC then [bslashC, bslashC]
  else if c = Char.ofNat 8 then [bslashC, 'b']
  else if c = Char.ofNat 9 then [bslashC, 't']
  else if c = Char.ofNat 10 then [bslashC, 'n']
  else if c = Char.ofNat 12 then [bslashC, 'f']
  else if c = Char.ofNat 13 then [bslashC, 'r']
  else if c.toNat < 32 then
    [bslashC, 'u', '0', '0', hexDigitChar (c.toNat / 16), hexDigitChar (c.toNat % 16)]
  else [c]

/-- Serialize a JSON string literal with its delimiting quotes. -/
def serStr (s : String) : List Char :=
  quoteC :: s.toList.flatMap escChar ++ [quoteC]

/-- The digit string of `mant / 10 ^ scale` for a nonnegative mantissa:
the mantissa's digits padded to at least `scale + 1` places, with a
decimal point inserted before the last `scale` digits when `scale` is
positive. -/
def serNumAbs (a s : Nat) : List Char :=
  let ds := natDigits a
  let padded :=
    if ds.length < s + 1 then List.replicate (s + 1 - ds.length) '0' ++ ds
    else ds
  if s = 0 then padded
  else padded.take (padded.length - s) ++ '.' :: padded.drop (padded.length - s)

/-- Serialize a decimal number: optional sign, then the digit string. -/
def serNum (n : JNum) : List Char :=
  (if n.mant < 0 then ['-'] else []) ++ serNumAbs n.mant.natAbs n.scale

/-- Characters that would extend a JSON number token. -/
def numExt (c : Char) : Bool := isDigitC c || c = '.' || c = 'e' || c = 'E'

/-- The continuation after a serialized value must not extend a number
token (it never does inside serialized JSON: the next character is a
comma, a closing bracket, or nothing). -/
def numSafe : List Char → Bool
  | [] => true
  | c :: _ => !numExt c

mutual

/-- Serialize a JSON value with `json.dumps`'s default separators
(`", "` and `": "`). -/
def serVal : JValue → List Char
  | .null => 'n' :: 'u' :: 'l' :: 'l' :: []
  | .bool true => 't' :: 'r' :: 'u' :: 'e' :: []
  | .bool false => 'f' :: 'a' :: 'l' :: 's' :: 'e' :: []
  | .num n => serNum n
  | .str s => serStr s
  | .arr [] => [lbrackC, rbrackC]
  | .arr (v :: vs) => lbrackC :: serVal v ++ serItemsRest vs ++ [rbrackC]
  | .obj [] => [lbraceC, rbraceC]
  | .obj (kv :: kvs) => lbraceC :: serMember kv ++ serMembersRest kvs ++ [rbraceC]

/-- Serialize one object member as `"key": value`. -/
def serMember : String × JValue → List Char
  | (k, v) => serStr k ++ ':' :: ' ' :: serVal v

/-- Serialize the remaining array elements, each preceded by `", "`. -/
def serItemsRest : List JValue → List Char
  | [] => []
  | v :: vs => ',' :: ' ' :: serVal v ++ serItemsRest vs

/-- Serialize the remaining object members, each preceded by `", "`. -/
def serMembersRest : List (String × JValue) → List Char
  | [] => []
  | kv :: kvs => ',' :: ' ' :: serMember kv ++ serMembersRest kvs

end

mutual

/-- Fuel bound on the recursion depth the parser needs for a value. -/
def jfuel : JValue → Nat
  | .null => 1
  | .bool _ => 1
  | .num _ => 1
  | .str s => s.length + 2
  | .arr l => 1 + jfuelItems l
  | .obj l => 1 + jfuelMembers l

/-- Fuel bound for the remainder of an array. -/
def jfuelItems : List JValue → Nat
  | [] => 1
  | v :: vs => 1 + max (jfuel v) (jfuelItems vs)

/-- Fuel bound for the remainder of an object. -/
def jfuelMembers : List (String × JValue) → Nat
  | [] => 1
  | (k, v) :: vs => 2 + max (max (k.length + 1) (jfuel v)) (jfuelMembers vs)

end

/-- Parse the exponent digits of a number (after `e`/`E` and sign). -/
def parseExpDigits (mant scale : Nat) (negExp : Bool) (cs : List Char) :
    Option (JNum × List Char) :=
  let ds := cs.takeWhile isDigitC
  let r := cs.dropWhile isDigitC
  if ds.isEmpty then none
  else
    let e := digitsToNat ds
    if negExp then some (⟨(mant : Int), scale + e⟩, r)
    else some (⟨(mant : Int) * (10 : Int) ^ e, scale⟩, r)

/-- Parse an optional exponent part of a number. -/
def parseExpPart (mant scale : Nat) (cs : List Char) : Option (JNum × List Char) :=
  match cs with
  | c :: rest =>
    if c = 'e' ∨ c = 'E' then
      match rest with
      | '+' :: r2 => parseExpDigits mant scale false r2
      | '-' :: r2 => parseExpDigits mant scale true r2
      | r2 => parseExpDigits mant scale false r2
    else some (⟨(mant : Int), scale⟩, cs)
  | [] => some (⟨(mant : Int), scale⟩, [])

/-- Parse the absolute part of a JSON number (integer part, optional
fraction, optional exponent), rejecting leading zeros as `json.loads`
does. -/
def parseNumAbs (cs : List Char) : Option (JNum × List Char) :=
  let ds := cs.takeWhile isDigitC
  let r1 := cs.dropWhile isDigitC
  match ds with
  | [] => none
  | d0 :: dtail =>
    if d0 = '0' ∧ dtail ≠ [] then none
    else
      let ipart := digitsToNat ds
      match r1 with
      | '.' :: r2 =>
        let fs := r2.takeWhile isDigitC
        let r3 := r2.dropWhile isDigitC
        if fs.isEmpty then none
        else parseExpPart (ipart * 10 ^ fs.length + digitsToNat fs) fs.length r3
      | _ => parseExpPart ipart 0 r1

/-- Parse the characters of a JSON string literal after the opening
quote, returning the decoded characters and the input after the closing
quote.  Raw controls are rejected; escapes follow `json.loads` (a lone
surrogate `\uXXXX` degrades to `Char.ofNat`'s default, a case no claim
exercises). -/
def parseStrChars : Nat → List Char → Option (List Char × List Char)
  | 0, _ => none
  | fuel + 1, cs =>
    match cs with
    | [] => none
    | c :: rest =>
      if c = quoteC then some ([], rest)
      else if c = bslashC then
        match rest with
        | [] => none
        | e :: r2 =>
          if e = quoteC then (parseStrChars fuel r2).map fun p => (quoteC :: p.1, p.2)
          else if e = bslashC then (parseStrChars fuel r2).map fun p => (bslashC :: p.1, p.2)
          else if e = '/' then (parseStrChars fuel r2).map fun p => ('/' :: p.1, p.2)
          else if e = 'b' then (parseStrChars fuel r2).map fun p => (Char.ofNat 8 :: p.1, p.2)
          else if e = 't' then (parseStrChars fuel r2).map fun p => (Char.ofNat 9 :: p.1, p.2)
          else if e = 'n' then (parseStrChars fuel r2).map fun p => (Char.ofNat 10 :: p.1, p.2)
          else if e = 'f' then (parseStrChars fuel r2).map fun p => (Char.ofNat 12 :: p.1, p.2)
          else if e = 'r' then (parseStrChars fuel r2).map fun p => (Char.ofNat 13 :: p.1, p.2)
          else if e = 'u' then
            match r2 with
            | h1 :: h2 :: h3 :: h4 :: r6 =>
              match hexVal h1, hexVal h2, hexVal h3, hexVal h4 with
              | some a, some b, some c3, some d =>
                (parseStrChars fuel r6).map fun p =>
                  (Char.ofNat (((a * 16 + b) * 16 + c3) * 16 + d) :: p.1, p.2)
              | _, _, _, _ => none
            | _ => none
          else none
      else if c.toNat < 32 then none
      else (parseStrChars fuel rest).map fun p => (c :: p.1, p.2)

mutual

/-- Parse one JSON value (modelling `json.loads`' grammar); consumes
leading whitespace, dispatches on the first character. -/
def parseVal : Nat → List Char → Option (JValue × List Char)
  | 0, _ => none
  | fuel + 1, cs =>
    match skipWs cs with
    | [] => none
    | c :: rest =>
      if c = quoteC then
        match parseStrChars fuel rest with
        | some (sl, r) => some (.str (String.mk sl), r)
        | none => none
      else if c = lbraceC then
        match skipWs rest with
        | [] => none
        | c2 :: r2 =>
          if c2 = rbraceC then some (.obj [], r2)
          else
            match parseMember fuel (c2 :: r2) with
            | some (kv, r3) =>
              match parseMembersMore fuel r3 with
              | some (kvs, r4) => some (.obj (kv :: kvs), r4)
              | none => none
            | none => none
      else if c = lbrackC then
        match skipWs rest with
        | [] => none
        | c2 :: r2 =>
          if c2 = rbrackC then some (.arr [], r2)
          else
            match parseVal fuel (c2 :: r2) with
            | some (v, r3) =>
              match parseItemsMore fuel r3 with
              | some (vs, r4) => some (.arr (v :: vs), r4)
              | none => none
            | none => none
      else if c = 't' then
        match rest with
        | 'r' :: 'u' :: 'e' :: r => some (.bool true, r)
        | _ => none
      else if c = 'f' then
        match rest with
        | 'a' :: 'l' :: 's' :: 'e' :: r => some (.bool false, r)
        | _ => none
      else if c = 'n' then
        match rest with
        | 'u' :: 'l' :: 'l' :: r => some (.null, r)
        | _ => none
      else if c = '-' then
        match parseNumAbs rest with
        | some (n, r) => some (.num ⟨-n.mant, n.scale⟩, r)
        | none => none
      else if isDigitC c then
        match parseNumAbs (c :: rest) with
        | some (n, r) => some (.num n, r)
        | none => none
      else none

/-- Parse one object member `"key": value`. -/
def parseMember : Nat → List Char → Option ((String × JValue) × List Char)
  | 0, _ => none
  | fuel + 1, cs =>
    match skipWs cs with
    | [] => none
    | c :: rest =>
      if c = quoteC then
        match parseStrChars fuel rest with
        | some (k, r1) =>
          match skipWs r1 with
          | [] => none
          | c2 :: r2 =>
            if c2 = ':' then
              match parseVal fuel r2 with
              | some (v, r3) => some ((String.mk k, v), r3)
              | none => none
            else none
        | none => none
      else none

/-- Parse the remainder of an object after one member: `}` or `,`
followed by another member. -/
def parseMembersMore : Nat → List Char → Option (List (String × JValue) × List Char)
  | 0, _ => none
  | fuel + 1, cs =>
    match skipWs cs with
    | [] => none
    | c :: rest =>
      if c = rbraceC then some ([], rest)
      else if c = ',' then
        match parseMember fuel rest with
        | some (kv, r1) =>
          match parseMembersMore fuel r1 with
          | some (kvs, r2) => some (kv :: kvs, r2)
          | none => none
        | none => none
      else none

/-- Parse the remainder of an array after one element: `]` or `,`
followed by another element. -/
def parseItemsMore : Nat → List Char → Option (List JValue × List Char)
  | 0, _ => none
  | fuel + 1, cs =>
    match skipWs cs with
    | [] => none
    | c :: rest =>
      if c = rbrackC then some ([], rest)
      else if c = ',' then
        match parseVal fuel rest with
        | some (v, r1) =>
          match parseItemsMore fuel r1 with
          | some (vs, r2) => some (v :: vs, r2)
          | none => none
        | none => none
      else none

end

/-- `json.loads` on a character list: parse one value and require only
whitespace to remain. -/
def jsonParseL (cs : List Char) : Option JValue :=
  match parseVal (cs.length + 1) cs with
  | some (v, rest) => if (skipWs rest).isEmpty then some v else none
  | none => none

/-- `json.loads` on a string. -/
def jsonParse (s : String) : Option JValue := jsonParseL s.toList

/-! The response-extraction and field-completion layer of `agent.py`. -/

/-- Does `s` start with `pat`? -/
def listStarts : List Char → List Char → Bool
  | [], _ => true
  | _ :: _, [] => false
  | p :: ps, c :: cs => p = c && listStarts ps cs

/-- Index of the first occurrence of `pat` in the list, as `re.search`
finds leftmost matches. -/
def findSubIdx (pat : List Char) : List Char → Option Nat
  | [] => if pat.isEmpty then some 0 else none
  | c :: cs =>
    if listStarts pat (c :: cs) then some 0
    else (findSubIdx pat cs).map fun i => i + 1

/-- Substring test. -/
def containsSub (pat s : List Char) : Bool := (findSubIdx pat s).isSome

/-- The explicit output markers the agent is instructed to emit. -/
def startMarker : List Char := "<<JSON_START>>".toList

def endMarker : List Char := "<<JSON_END>>".toList

/-- `re.search(r"<<JSON_START>>(.*?)<<JSON_END>>", ..., re.DOTALL)`:
leftmost start marker, then the shortest span up to an end marker. -/
def extractMarked (cs : List Char) : Option (List Char) :=
  match findSubIdx startMarker cs with
  | none => none
  | some i =>
    let afterStart := cs.drop (i + startMarker.length)
    match findSubIdx endMarker afterStart with
    | none => none
    | some j => some (afterStart.take j)

/-- `re.search(r"\x7b.*\x7d", ..., re.DOTALL)`: from the first opening
brace to the last closing brace, when the latter comes strictly after
the former. -/
def braceSlice (cs : List Char) : Option (List Char) :=
  match findSubIdx [lbraceC] cs with
  | none => none
  | some i =>
    match findSubIdx [rbraceC] cs.reverse with
    | none => none
    | some jr =>
      let j := cs.length - 1 - jr
      if i < j then some ((cs.drop i).take (j - i + 1)) else none

/-- `_extract_json_from_message`, modelled on the combined text of the
message (the source first joins the text blocks and strips): try the
marker-delimited span (stripped) first, fall back to the greedy brace
span, and return the parsed value (if any) together with the combined
text. -/
def extract_json_from_text (raw : String) : Option JValue × String :=
  let combined := pyStripL raw.toList
  let viaMarker : Option JValue :=
    match extractMarked combined with
    | none => none
    | some inner => jsonParseL (pyStripL inner)
  match viaMarker with
  | some v => (some v, String.mk combined)
  | none =>
    match braceSlice combined with
    | none => (none, String.mk combined)
    | some slice =>
      match jsonParseL slice with
      | some v => (some v, String.mk combined)
      | none => (none, String.mk combined)

/-- The fallback record `_agent_message_to_dict` synthesizes when no
truthy structured payload was extracted. -/
def fallbackRecord (combined : String) : JValue :=
  .obj
    [("result", jstr "fail"),
     ("confidence", .num ⟨5, 1⟩),
     ("explanation", jstr combined),
     ("shortExplanation", jstr "Failed to analyze JSON parse")]

/-- `_agent_message_to_dict` with `use_citations=False` (the citation
variant only adds an `extractedText` field from the protocol citation
blocks, which no claim exercises): return the extracted payload when it
is truthy (`if parsed_json:`), the fallback record otherwise. -/
def agent_message_to_dict (raw : String) : JValue :=
  match extract_json_from_text raw with
  | (some v, combined) => if jtruthy v then v else fallbackRecord combined
  | (none, combined) => fallbackRecord combined

/-- Dictionary lookup on an insertion-ordered association list. -/
def jget : List (String × JValue) → String → Option JValue
  | [], _ => none
  | (k, v) :: r, key => if k = key then some v else jget r key

/-- Python `key in dict`. -/
def jhas (d : List (String × JValue)) (k : String) : Bool := (jget d k).isSome

/-- `dict.setdefault`-style conditional insert: Python's
`if k not in d: d[k] = v` appends a missing key at the end. -/
def jsetd (d : List (String × JValue)) (k : String) (v : JValue) : List (String × JValue) :=
  if jhas d k then d else d ++ [(k, v)]

/-- Python `d[k] = v`: replace in place, else append. -/
def jset : List (String × JValue) → String → JValue → List (String × JValue)
  | [], k, v => [(k, v)]
  | (k', v') :: r, k, v => if k' = k then (k', v) :: r else (k', v') :: jset r k v

/-- The `verificationDetails` step of the completion block: add the
whole field when absent, add the nested `sourcesDetails` when the
present object lacks it.  When the present value is not an object the
source's `in` test and item assignment behave non-uniformly (raising for
non-containers); that case is left unchanged here and excluded by the
claims' hypotheses. -/
def ecVerification (d4 : List (String × JValue)) : List (String × JValue) :=
  match jget d4 "verificationDetails" with
  | none => d4 ++ [("verificationDetails", .obj [("sourcesDetails", .arr [])])]
  | some (.obj o) =>
    if jhas o "sourcesDetails" then d4
    else jset d4 "verificationDetails" (.obj (o ++ [("sourcesDetails", .arr [])]))
  | some _ => d4

/-- The field-completion block of `process_review` (`agent.py` lines
1121–1156): fill the five common fields, the nested
`verificationDetails.sourcesDetails`, and the type-conditional fields
(`has_images = false` is the PDF side). -/
def ensureComplete (d : List (String × JValue)) (has_images : Bool) :
    List (String × JValue) :=
  let d4 :=
    jsetd (jsetd (jsetd (jsetd d "result" (jstr "fail")) "confidence" (.num ⟨5, 1⟩))
      "explanation" (jstr "No explanation provided"))
      "shortExplanation" (jstr "No short explanation provided")
  let d5 := ecVerification d4
  if has_images then
    jsetd (jsetd d5 "usedImageIndexes" (.arr [])) "boundingBoxes" (.arr [])
  else
    jsetd (jsetd d5 "extractedText" (jstr "")) "pageNumber" (.num ⟨1, 0⟩)

/-- The full normalization path of `process_review` for one agent
response: convert the message, set `reviewType` (as
`_process_review_legacy` / `_process_review_with_citations` do), then
complete the fields.  `none` models the source raising on a non-object
payload at the `result["reviewType"] = ...` assignment. -/
def reviewPipeline (raw : String) (has_images : Bool) :
    Option (List (String × JValue)) :=
  match agent_message_to_dict raw with
  | .obj d =>
    some (ensureComplete
      (jset d "reviewType" (jstr (if has_images then "IMAGE" else "PDF"))) has_images)
  | _ => none

/-- The claim C9 pipeline: structured extraction followed by field
completion for the review type. -/
def extractCompleteRoundtrip (raw : String) (has_images : Bool) :
    Option (List (String × JValue)) :=
  match (extract_json_from_text raw).1 with
  | some (.obj d) => some (ensureComplete d has_images)
  | _ => none

/-- A fully-populated PDF-shaped review record. -/
structure PdfRecord where
  result : String
  confidence : JNum
  explanation : String
  shortExplanation : String
  extractedText : String
  pageNumber : Nat
  sourcesDetails : List JValue

/-- The JSON object of a fully-populated PDF record. -/
def PdfRecord.toJ (r : PdfRecord) : List (String × JValue) :=
  [("result", jstr r.result),
   ("confidence", .num r.confidence),
   ("explanation", jstr r.explanation),
   ("shortExplanation", jstr r.shortExplanation),
   ("reviewType", jstr "PDF"),
   ("extractedText", jstr r.extractedText),
   ("pageNumber", .num ⟨(r.pageNumber : Int), 0⟩),
   ("verificationDetails", .obj [("sourcesDetails", .arr r.sourcesDetails)])]

/-- A fully-populated IMAGE-shaped review record. -/
structure ImageRecord where
  result : String
  confidence : JNum
  explanation : String
  shortExplanation : String
  usedImageIndexes : List Nat
  boundingBoxes : List JValue
  sourcesDetails : List JValue

/-- The JSON object of a fully-populated IMAGE record. -/
def ImageRecord.toJ (r : ImageRecord) : List (String × JValue) :=
  [("result", jstr r.result),
   ("confidence", .num r.confidence),
   ("explanation", jstr r.explanation),
   ("shortExplanation", jstr r.shortExplanation),
   ("reviewType", jstr "IMAGE"),
   ("usedImageIndexes", .arr (r.usedImageIndexes.map fun i => .num ⟨(i : Int), 0⟩)),
   ("boundingBoxes", .arr r.boundingBoxes),
   ("verificationDetails", .obj [("sourcesDetails", .arr r.sourcesDetails)])]

/-- The data-model constraints on a confidence value in `[0, 1]`. -/
def ValidNum01 (n : JNum) : Prop := 0 ≤ n.mant ∧ n.mant ≤ 10 ^ n.scale

/-- Validity of a fully-populated PDF record per the data model. -/
def PdfRecord.Valid (r : PdfRecord) : Prop :=
  (r.result = "pass" ∨ r.result = "fail") ∧ ValidNum01 r.confidence ∧
    1 ≤ r.pageNumber ∧ r.shortExplanation.length ≤ 80

/-- Validity of a fully-populated IMAGE record per the data model. -/
def ImageRecord.Valid (r : ImageRecord) : Prop :=
  (r.result = "pass" ∨ r.result = "fail") ∧ ValidNum01 r.confidence ∧
    r.shortExplanation.length ≤ 80

/-! Concrete fixtures used by the claim witnesses and counterexamples. -/

def c1EnvW : ConsumerEnv where
  ceiling := 2
  maxQueueWaitMs := 86400000
  visProcessing := 1200
  visRetry := 15
  nowMs := 1000
  listRunning := .ok 1
  launch := fun _ _ => .ok

def c1Msg1 : SqsMessage where
  messageId := "m-1"
  receiptHandle := "r-1"
  bodyRaw := "\x7b\"reviewJobId\": \"job-1\"\x7d"
  bodyParse := some { reviewJobId := some "job-1", userId := none }
  sentTimestamp := some 0

def c1Msg2 : SqsMessage where
  messageId := "m-2"
  receiptHandle := "r-2"
  bodyRaw := "\x7b\"reviewJobId\": \"job-2\"\x7d"
  bodyParse := some { reviewJobId := some "job-2", userId := none }
  sentTimestamp := some 0

def c1Msg3 : SqsMessage where
  messageId := "m-3"
  receiptHandle := "r-3"
  bodyRaw := "\x7b\"reviewJobId\": \"job-3\"\x7d"
  bodyParse := some { reviewJobId := some "job-3", userId := none }
  sentTimestamp := some 0

def c1CeEnv : ConsumerEnv where
  ceiling := 2
  maxQueueWaitMs := 86400000
  visProcessing := 1200
  visRetry := 15
  nowMs := 1000
  listRunning := .ok 5
  launch := fun _ _ => .ok

def c1CeMsg : SqsMessage where
  messageId := ""
  receiptHandle := "r-ce"
  bodyRaw := "\x7b\"reviewJobId\": \"job-9\"\x7d"
  bodyParse := some { reviewJobId := some "job-9", userId := none }
  sentTimestamp := some 0

def c2EnvW : ConsumerEnv where
  ceiling := 2
  maxQueueWaitMs := 86400000
  visProcessing := 1200
  visRetry := 15
  nowMs := 1000
  listRunning := .error ()
  launch := fun _ _ => .ok

def c2MsgA : SqsMessage where
  messageId := "a-1"
  receiptHandle := "ra-1"
  bodyRaw := "\x7b\"reviewJobId\": \"job-a\"\x7d"
  bodyParse := some { reviewJobId := some "job-a", userId := none }
  sentTimestamp := some 0

def c2MsgB : SqsMessage where
  messageId := "a-2"
  receiptHandle := ""
  bodyRaw := "\x7b\"reviewJobId\": \"job-b\"\x7d"
  bodyParse := some { reviewJobId := some "job-b", userId := none }
  sentTimestamp := some 0

def c2CeEnv : ConsumerEnv where
  ceiling := 3
  maxQueueWaitMs := 86400000
  visProcessing := 1200
  visRetry := 15
  nowMs := 1000
  listRunning := .error ()
  launch := fun _ _ => .ok

def c2CeMsg : SqsMessage where
  messageId := ""
  receiptHandle := "rc-1"
  bodyRaw := "\x7b\"reviewJobId\": \"job-c\"\x7d"
  bodyParse := some { reviewJobId := some "job-c", userId := none }
  sentTimestamp := some 0

def c3EnvW : ConsumerEnv where
  ceiling := 2
  maxQueueWaitMs := 86400000
  visProcessing := 1200
  visRetry := 15
  nowMs := 90000000
  listRunning := .ok 0
  launch := fun _ _ => .ok

def c3MsgW : SqsMessage where
  messageId := "m-stale"
  receiptHandle := "r-stale"
  bodyRaw := "\x7b\"reviewJobId\": \"job-42\"\x7d"
  bodyParse := some { reviewJobId := some "job-42", userId := none }
  sentTimestamp := some 0

def c3MsgNoJobW : SqsMessage where
  messageId := "m-stale-2"
  receiptHandle := "r-stale-2"
  bodyRaw := "\x7b\x7d"
  bodyParse := some { reviewJobId := none, userId := none }
  sentTimestamp := some 0

def c4EnvDup : ConsumerEnv where
  ceiling := 2
  maxQueueWaitMs := 86400000
  visProcessing := 1200
  visRetry := 15
  nowMs := 1000
  listRunning := .ok 0
  launch := fun _ _ => .clientError "ExecutionAlreadyExists"

def c4EnvThrottle : ConsumerEnv where
  ceiling := 2
  maxQueueWaitMs := 86400000
  visProcessing := 1200
  visRetry := 15
  nowMs := 1000
  listRunning := .ok 0
  launch := fun _ _ => .clientError "ThrottlingException"

def c4EnvExn : ConsumerEnv where
  ceiling := 2
  maxQueueWaitMs := 86400000
  visProcessing := 1200
  visRetry := 15
  nowMs := 1000
  listRunning := .ok 0
  launch := fun _ _ => .exn

def c4MsgW : SqsMessage where
  messageId := "m-4"
  receiptHandle := "r-4"
  bodyRaw := "\x7b\"reviewJobId\": \"job-4\"\x7d"
  bodyParse := some { reviewJobId := some "job-4", userId := none }
  sentTimestamp := some 0

/-- The claim C8 scenario input: a marker-wrapped minimal PDF payload. -/
def c8ScenarioRaw : String :=
  "<<JSON_START>>\x7b\"result\":\"pass\",\"confidence\":0.9\x7d<<JSON_END>>"

/-- The final record the C8 scenario must produce (0.9 is the exact
decimal `⟨9, 1⟩`). -/
def c8ScenarioFinal : List (String × JValue) :=
  [("result", jstr "pass"),
   ("confidence", .num ⟨9, 1⟩),
   ("reviewType", jstr "PDF"),
   ("explanation", jstr "No explanation provided"),
   ("shortExplanation", jstr "No short explanation provided"),
   ("verificationDetails", .obj [("sourcesDetails", .arr [])]),
   ("extractedText", jstr ""),
   ("pageNumber", .num ⟨1, 0⟩)]

/-- A valid, fully-populated PDF record whose `explanation` embeds a
marker-wrapped empty JSON object — the C9 counterexample input. -/
def c9CeRecord : PdfRecord where
  result := "pass"
  confidence := ⟨9, 1⟩
  explanation := "<<JSON_START>>\x7b\x7d<<JSON_END>>"
  shortExplanation := "ok"
  extractedText := ""
  pageNumber := 1
  sourcesDetails := []

/-- A marker-free valid PDF record for the C9 witness. -/
def c9WitnessPdf : PdfRecord where
  result := "pass"
  confidence := ⟨85, 2⟩
  explanation := "Stamped & signed \"as required\".\nSee page 2."
  shortExplanation := "ok"
  extractedText := "quoted text"
  pageNumber := 2
  sourcesDetails := [JValue.obj [("toolName", jstr "file_read")]]

/-- A marker-free valid IMAGE record for the C9 witness. -/
def c9WitnessImg : ImageRecord where
  result := "fail"
  confidence := ⟨5, 1⟩
  explanation := "no seal visible"
  shortExplanation := "missing seal"
  usedImageIndexes := [0, 2]
  boundingBoxes :=
    [JValue.obj
      [("imageIndex", .num ⟨0, 0⟩), ("label", jstr "seal"),
       ("coordinates", .arr [.num ⟨10, 0⟩, .num ⟨20, 0⟩, .num ⟨30, 0⟩, .num ⟨40, 0⟩])]]
  sourcesDetails := []

-- ===== THEOREMS =====

/-- Elements of `changeVisEffects` only ever are visibility changes. -/
theorem mem_changeVisEffects {e : QueueEffect} {r : String} {t : Nat}
    (h : e ∈ changeVisEffects r t) : e = .changeVisibility r t := by
  unfold changeVisEffects at h
  split at h
  · simp at h
  · simpa using h

/-- A successful-launch effect in the trace of `process_message` always
carries the message's own (necessarily nonempty) `messageId` as the
execution name. -/
theorem process_message_startOk {env : ConsumerEnv} {m : SqsMessage} {name inp : String}
    (h : QueueEffect.startExecutionOk name inp ∈ (process_message env m).2) :
    name = m.messageId ∧ m.messageId ≠ "" := by
  unfold process_message at h
  rcases hb : m.bodyParse with _ | b <;> rw [hb] at h <;> dsimp only at h
  · simp at h
  · split at h
    · dsimp only at h
      unfold handle_queue_timeout at h
      split at h <;> simp at h
    · split at h
      · dsimp only at h
        have := mem_changeVisEffects h
        simp at this
      · rename_i hid
        split at h <;> try dsimp only at h
        · rcases List.mem_append.1 h with h' | h'
          · have := mem_changeVisEffects h'
            simp at this
          · simp at h'
            exact ⟨h'.1, hid⟩
        · split at h <;> try dsimp only at h
          · have := mem_changeVisEffects h
            simp at this
          · rcases List.mem_append.1 h with h' | h' <;>
              · have := mem_changeVisEffects h'
                simp at this
        · rcases List.mem_append.1 h with h' | h' <;>
            · have := mem_changeVisEffects h'
              simp at this

/-- Batch-loop invariant behind claim C10: no blank identifier is ever
recorded as a batch item failure, and no workflow is ever launched under
a blank execution name. -/
theorem consumeBatch_blank_id (env : ConsumerEnv) :
    ∀ (msgs : List SqsMessage) (slots : Int),
      "" ∉ (consumeBatch env msgs slots).1 ∧
      ∀ inp, QueueEffect.startExecutionOk "" inp ∉ (consumeBatch env msgs slots).2 := by
  intro msgs
  induction msgs with
  | nil => intro slots; simp [consumeBatch]
  | cons m rest ih =>
    intro slots
    unfold consumeBatch
    split
    · constructor
      · intro hmem
        rcases List.mem_append.1 hmem with h' | h'
        · split at h' <;> simp_all
        · exact (ih slots).1 h'
      · intro inp hmem
        rcases List.mem_append.1 hmem with h' | h'
        · have := mem_changeVisEffects (show _ ∈ changeVisEffects m.receiptHandle env.visRetry
            from h')
          simp at this
        · exact (ih slots).2 inp h'
    · split
      · constructor
        · exact (ih (slots - 1)).1
        · intro inp hmem
          rcases List.mem_append.1 hmem with h' | h'
          · have := (process_message_startOk h').1
            have h2 := (process_message_startOk h').2
            exact h2 this.symm
          · exact (ih (slots - 1)).2 inp h'
      · constructor
        · intro hmem
          rcases List.mem_append.1 hmem with h' | h'
          · split at h' <;> simp_all
          · exact (ih slots).1 h'
        · intro inp hmem
          rcases List.mem_append.1 hmem with h' | h'
          · have := (process_message_startOk h').1
            have h2 := (process_message_startOk h').2
            exact h2 this.symm
          · exact (ih slots).2 inp h'

/-- C10: a delivered message whose `messageId` is absent or empty is
never listed in the returned `batchItemFailures` — whether it was
deferred for lack of slots or its launch failed — so it is implicitly
acknowledged, and no workflow execution is ever launched for it (the
source returns from `process_message` before `start_execution` whenever
the id is blank). -/
theorem c10_blank_message_id_acknowledged (env : ConsumerEnv) (msgs : List SqsMessage) :
    "" ∉ (lambda_handler env msgs).1 ∧
    ∀ inp, QueueEffect.startExecutionOk "" inp ∉ (lambda_handler env msgs).2 := by
  unfold lambda_handler
  split
  · simp
  · exact consumeBatch_blank_id env msgs (availableSlots env)


/-- The batch loop on the empty batch. -/
theorem consumeBatch_nil (env : ConsumerEnv) (slots : Int) :
    consumeBatch env [] slots = ([], []) := rfl

/-- Batch-loop step with no slots left: defer. -/
theorem consumeBatch_defer (env : ConsumerEnv) (m : SqsMessage) (rest : List SqsMessage)
    (slots : Int) (h : slots ≤ 0) :
    consumeBatch env (m :: rest) slots =
      ((if m.messageId = "" then [] else [m.messageId]) ++ (consumeBatch env rest slots).1,
        rescheduleEffects m env.visRetry ++ (consumeBatch env rest slots).2) := by
  conv_lhs => rw [consumeBatch]
  rw [if_pos h]

/-- Batch-loop step with a slot and a successful `process_message`:
consume the slot. -/
theorem consumeBatch_admit (env : ConsumerEnv) (m : SqsMessage) (rest : List SqsMessage)
    (slots : Int) (h : 0 < slots) (hp : (process_message env m).1 = true) :
    consumeBatch env (m :: rest) slots =
      ((consumeBatch env rest (slots - 1)).1,
        (process_message env m).2 ++ (consumeBatch env rest (slots - 1)).2) := by
  conv_lhs => rw [consumeBatch]
  rw [if_neg (by omega), if_pos hp]

/-- Batch-loop step with a slot and a failing `process_message`: keep the
slot and record the failure when the id is nonempty. -/
theorem consumeBatch_fail (env : ConsumerEnv) (m : SqsMessage) (rest : List SqsMessage)
    (slots : Int) (h : 0 < slots) (hp : (process_message env m).1 = false) :
    consumeBatch env (m :: rest) slots =
      ((if m.messageId = "" then [] else [m.messageId]) ++ (consumeBatch env rest slots).1,
        (process_message env m).2 ++ (consumeBatch env rest slots).2) := by
  conv_lhs => rw [consumeBatch]
  rw [if_neg (by omega), if_neg (by simp [hp])]

/-- `lambda_handler` on a nonempty batch runs the loop at the computed
slot count. -/
theorem lambda_handler_cons (env : ConsumerEnv) (m : SqsMessage) (msgs : List SqsMessage) :
    lambda_handler env (m :: msgs) = consumeBatch env (m :: msgs) (availableSlots env) := by
  unfold lambda_handler
  rw [if_neg (by simp)]

/-- C1 counterexample: with ceiling 2 and 5 running executions there are
no available slots, so the single delivered message is rescheduled with
the short retry timeout; but because its `messageId` is empty it is NOT
recorded as a batch item failure, contradicting the claim's unconditional
"recorded as a batch item failure" for deferred messages. -/
theorem c1_blank_deferred_not_reported :
    availableSlots c1CeEnv = 0 ∧
    lambda_handler c1CeEnv [c1CeMsg] = ([], [QueueEffect.changeVisibility "r-ce" 15]) := by
  constructor
  · decide
  · decide

/-- C1 (amended): the controller computes
`availableSlots = max(ceiling - runningCount, 0)` and walks the batch in
delivery order; with no slots left a message is rescheduled with the
short retry timeout and — provided its `messageId` is nonempty — recorded
as a batch item failure, without consuming a slot; otherwise
`process_message` runs and a slot is consumed exactly when it reports
success.  For a batch of 3 with ceiling 2 and running count 1, the first
message is admitted and the remaining two are deferred with the retry
timeout and (having nonempty ids) both reported as batch item failures. -/
theorem c1_admission_control
    (env : ConsumerEnv) (m : SqsMessage) (rest : List SqsMessage) (slots : Int)
    (m1 m2 m3 : SqsMessage) :
    availableSlots env =
      max ((env.ceiling : Int) - (get_running_executions_count env : Int)) 0 ∧
    (slots ≤ 0 →
      consumeBatch env (m :: rest) slots =
        ((if m.messageId = "" then [] else [m.messageId]) ++ (consumeBatch env rest slots).1,
          rescheduleEffects m env.visRetry ++ (consumeBatch env rest slots).2)) ∧
    (0 < slots → (process_message env m).1 = true →
      consumeBatch env (m :: rest) slots =
        ((consumeBatch env rest (slots - 1)).1,
          (process_message env m).2 ++ (consumeBatch env rest (slots - 1)).2)) ∧
    (0 < slots → (process_message env m).1 = false →
      consumeBatch env (m :: rest) slots =
        ((if m.messageId = "" then [] else [m.messageId]) ++ (consumeBatch env rest slots).1,
          (process_message env m).2 ++ (consumeBatch env rest slots).2)) ∧
    (env.ceiling = 2 → env.listRunning = .ok 1 →
      (process_message env m1).1 = true → m2.messageId ≠ "" → m3.messageId ≠ "" →
      lambda_handler env [m1, m2, m3] =
        ([m2.messageId, m3.messageId],
          (process_message env m1).2 ++ rescheduleEffects m2 env.visRetry ++
            rescheduleEffects m3 env.visRetry)) := by
  refine ⟨rfl, fun h => consumeBatch_defer env m rest slots h,
    fun h hp => consumeBatch_admit env m rest slots h hp,
    fun h hp => consumeBatch_fail env m rest slots h hp, ?_⟩
  intro hc hr hp h2 h3
  have hav : availableSlots env = 1 := by
    unfold availableSlots get_running_executions_count
    rw [hc, hr]
    decide
  have e3 : consumeBatch env [m3] (1 - 1 : Int) =
      ([m3.messageId], rescheduleEffects m3 env.visRetry) := by
    rw [consumeBatch_defer env m3 [] _ (by omega), if_neg h3, consumeBatch_nil]
    simp
  have e2 : consumeBatch env [m2, m3] (1 - 1 : Int) =
      ([m2.messageId, m3.messageId],
        rescheduleEffects m2 env.visRetry ++ rescheduleEffects m3 env.visRetry) := by
    rw [consumeBatch_defer env m2 [m3] _ (by omega), if_neg h2, e3]
    simp
  rw [lambda_handler_cons, hav,
    consumeBatch_admit env m1 [m2, m3] 1 (by omega) hp, e2]
  simp

/-- Witness for `c1_admission_control`, at the claim's own scenario:
ceiling 2, one running execution, three messages; the first is launched,
the other two deferred with a 15-second retry visibility timeout. -/
theorem c1_admission_control_witness :
    lambda_handler c1EnvW [c1Msg1, c1Msg2, c1Msg3] =
      (["m-2", "m-3"],
        [QueueEffect.changeVisibility "r-1" 1200,
          QueueEffect.startExecutionOk "m-1" "\x7b\"reviewJobId\": \"job-1\"\x7d",
          QueueEffect.changeVisibility "r-2" 15,
          QueueEffect.changeVisibility "r-3" 15]) := by
  have h := (c1_admission_control c1EnvW c1Msg1 [] 0 c1Msg1 c1Msg2 c1Msg3).2.2.2.2
    rfl rfl rfl (by decide) (by decide)
  simpa using h

/-- C2 counterexample: the running-count query fails, every message is
deferred, but a message with an empty `messageId` is NOT reported as a
batch item failure, contradicting the claim's "every message in that
batch is ... reported as a batch item failure". -/
theorem c2_blank_deferred_not_reported :
    c2CeEnv.listRunning = .error () ∧
    lambda_handler c2CeEnv [c2CeMsg] = ([], [QueueEffect.changeVisibility "rc-1" 15]) := by
  constructor
  · rfl
  · decide

/-- C2 (amended): when the running-executions query fails, the exception
is swallowed and the ceiling is substituted as the running count, so
`availableSlots` is 0; every message of the batch is then rescheduled
with the short retry visibility timeout, every message with a nonempty
`messageId` is reported as a batch item failure, and no workflow is
launched for any message of the batch. -/
theorem c2_fail_closed (env : ConsumerEnv) (msgs : List SqsMessage)
    (h : env.listRunning = .error ()) :
    get_running_executions_count env = env.ceiling ∧
    availableSlots env = 0 ∧
    lambda_handler env msgs =
      ((msgs.filterMap fun m => if m.messageId = "" then none else some m.messageId),
        msgs.flatMap fun m => rescheduleEffects m env.visRetry) ∧
    ∀ name inp, QueueEffect.startExecutionOk name inp ∉ (lambda_handler env msgs).2 := by
  have hrun : get_running_executions_count env = env.ceiling := by
    unfold get_running_executions_count
    rw [h]
  have hav : availableSlots env = 0 := by
    unfold availableSlots
    rw [hrun]
    simp
  have hloop : ∀ ms : List SqsMessage,
      consumeBatch env ms 0 =
        ((ms.filterMap fun m => if m.messageId = "" then none else some m.messageId),
          ms.flatMap fun m => rescheduleEffects m env.visRetry) := by
    intro ms
    induction ms with
    | nil => simp [consumeBatch]
    | cons m rest ih =>
      rw [consumeBatch_defer env m rest 0 (by omega), ih]
      by_cases hm : m.messageId = "" <;> simp [hm]
  have hmain : lambda_handler env msgs =
      ((msgs.filterMap fun m => if m.messageId = "" then none else some m.messageId),
        msgs.flatMap fun m => rescheduleEffects m env.visRetry) := by
    rcases msgs with _ | ⟨m, rest⟩
    · simp [lambda_handler]
    · rw [lambda_handler_cons, hav, hloop]
  refine ⟨hrun, hav, hmain, ?_⟩
  intro name inp hmem
  rw [hmain] at hmem
  simp only at hmem
  rcases List.mem_flatMap.1 hmem with ⟨m, _, hm⟩
  have := mem_changeVisEffects (show _ ∈ changeVisEffects m.receiptHandle env.visRetry from hm)
  simp at this

/-- Witness for `c2_fail_closed`: a failing query defers both messages;
the message without a receipt handle produces no visibility call, and
both (nonempty) ids are reported. -/
theorem c2_fail_closed_witness :
    lambda_handler c2EnvW [c2MsgA, c2MsgB] =
      (["a-1", "a-2"], [QueueEffect.changeVisibility "ra-1" 15]) := by
  have h := (c2_fail_closed c2EnvW [c2MsgA, c2MsgB] rfl).2.2.1
  simpa using h

/-- C3: a message whose queue wait time reaches the configured maximum
age is consumed without being retried: `process_message` returns `True`
(so the handler acknowledges it — this is also how the message is
"deleted": the source issues no explicit delete; anything not listed in
`batchItemFailures` is removed from the queue), and its only effect is a
single error-handler invocation with the
`handleReviewError`/`QUEUE_TIMEOUT_ERROR` payload when the job id is
truthy, and no invocation at all when the job id is missing (including
the unparsable-body case, which the source acknowledges even earlier). -/
theorem c3_staleness_reaper (env : ConsumerEnv) (m : SqsMessage)
    (hstale : env.maxQueueWaitMs ≤ get_queue_wait_ms env.nowMs m) :
    process_message env m =
      (true,
        match m.bodyParse with
        | some b =>
          if strTruthy b.reviewJobId then
            [QueueEffect.invokeError
              { action := "handleReviewError"
                reviewJobId := b.reviewJobId.getD ""
                error := "QUEUE_TIMEOUT_ERROR"
                userId := if strTruthy b.userId then b.userId else none }]
          else []
        | none => []) ∧
    (0 < availableSlots env → (lambda_handler env [m]).1 = []) := by
  have hp : process_message env m =
      (true,
        match m.bodyParse with
        | some b =>
          if strTruthy b.reviewJobId then
            [QueueEffect.invokeError
              { action := "handleReviewError"
                reviewJobId := b.reviewJobId.getD ""
                error := "QUEUE_TIMEOUT_ERROR"
                userId := if strTruthy b.userId then b.userId else none }]
          else []
        | none => []) := by
    unfold process_message
    rcases hb : m.bodyParse with _ | b
    · rfl
    · dsimp only
      rw [if_pos hstale]
      rfl
  refine ⟨hp, ?_⟩
  intro hav
  rw [lambda_handler_cons,
    consumeBatch_admit env m [] _ (by omega) (by rw [hp]), consumeBatch_nil]

/-- Witness for `c3_staleness_reaper`: a message enqueued 25 hours ago
against a 24-hour maximum, `reviewJobId="job-42"` — one error-handler
invocation with the exact payload, message acknowledged, no batch item
failure; and a stale message with no job id — no invocation, still
consumed. -/
theorem c3_staleness_reaper_witness :
    process_message c3EnvW c3MsgW =
      (true,
        [QueueEffect.invokeError
          { action := "handleReviewError", reviewJobId := "job-42"
            error := "QUEUE_TIMEOUT_ERROR", userId := none }]) ∧
    (lambda_handler c3EnvW [c3MsgW]).1 = [] ∧
    process_message c3EnvW c3MsgNoJobW = (true, []) := by
  have h1 := c3_staleness_reaper c3EnvW c3MsgW (by decide)
  have h2 := c3_staleness_reaper c3EnvW c3MsgNoJobW (by decide)
  exact ⟨h1.1, h1.2 (by decide), h2.1⟩

/-- C4: after a fresh, parsable message with a nonempty id has had its
visibility extended to the processing window, the launch outcome decides
everything: an "ExecutionAlreadyExists" `ClientError` is treated as
success (acknowledged, no retry-visibility change, no batch item
failure), while any other `ClientError` — and any other exception —
shortens the visibility timeout to the short retry window and reports
the message as a batch item failure. -/
theorem c4_launch_failure (env : ConsumerEnv) (m : SqsMessage) (b : ReviewBody)
    (hb : m.bodyParse = some b)
    (hfresh : get_queue_wait_ms env.nowMs m < env.maxQueueWaitMs)
    (hid : m.messageId ≠ "") :
    (env.launch m.messageId m.bodyRaw = .clientError "ExecutionAlreadyExists" →
      process_message env m = (true, changeVisEffects m.receiptHandle env.visProcessing) ∧
      (0 < availableSlots env → lambda_handler env [m] =
        ([], changeVisEffects m.receiptHandle env.visProcessing))) ∧
    (∀ code, code ≠ "ExecutionAlreadyExists" →
      env.launch m.messageId m.bodyRaw = .clientError code →
      process_message env m =
        (false, changeVisEffects m.receiptHandle env.visProcessing ++
          changeVisEffects m.receiptHandle env.visRetry) ∧
      (0 < availableSlots env → (lambda_handler env [m]).1 = [m.messageId])) ∧
    (env.launch m.messageId m.bodyRaw = .exn →
      process_message env m =
        (false, changeVisEffects m.receiptHandle env.visProcessing ++
          changeVisEffects m.receiptHandle env.visRetry) ∧
      (0 < availableSlots env → (lambda_handler env [m]).1 = [m.messageId])) := by
  have hbase : ∀ r, env.launch m.messageId m.bodyRaw = r →
      process_message env m =
        (match r with
        | .ok =>
          (true, changeVisEffects m.receiptHandle env.visProcessing ++
            [.startExecutionOk m.messageId m.bodyRaw])
        | .clientError code =>
          if code = "ExecutionAlreadyExists" then
            (true, changeVisEffects m.receiptHandle env.visProcessing)
          else
            (false, changeVisEffects m.receiptHandle env.visProcessing ++
              changeVisEffects m.receiptHandle env.visRetry)
        | .exn =>
          (false, changeVisEffects m.receiptHandle env.visProcessing ++
            changeVisEffects m.receiptHandle env.visRetry)) := by
    intro r hr
    unfold process_message
    rw [hb]
    dsimp only
    rw [if_neg (not_le.2 hfresh), if_neg hid, hr]
  have hfailList : process_message env m =
      (false, changeVisEffects m.receiptHandle env.visProcessing ++
        changeVisEffects m.receiptHandle env.visRetry) →
      0 < availableSlots env → (lambda_handler env [m]).1 = [m.messageId] := by
    intro hpr hav
    rw [lambda_handler_cons,
      consumeBatch_fail env m [] _ (by omega) (by rw [hpr]), consumeBatch_nil]
    simp [hid]
  refine ⟨?_, ?_, ?_⟩
  · intro hr
    have hpr := hbase _ hr
    dsimp only at hpr
    rw [if_pos rfl] at hpr
    refine ⟨hpr, ?_⟩
    intro hav
    rw [lambda_handler_cons,
      consumeBatch_admit env m [] _ (by omega) (by rw [hpr]), consumeBatch_nil, hpr]
    simp
  · intro code hcode hr
    have hpr := hbase _ hr
    dsimp only at hpr
    rw [if_neg hcode] at hpr
    exact ⟨hpr, hfailList hpr⟩
  · intro hr
    have hpr := hbase _ hr
    dsimp only at hpr
    exact ⟨hpr, hfailList hpr⟩

/-- Witness for `c4_launch_failure`: the same message under three
environments — duplicate-execution collision (acknowledged, no retry
reschedule), a throttling `ClientError` (retry visibility 15 s, reported
failed), and an unexpected exception (same retry posture). -/
theorem c4_launch_failure_witness :
    process_message c4EnvDup c4MsgW = (true, [QueueEffect.changeVisibility "r-4" 1200]) ∧
    lambda_handler c4EnvDup [c4MsgW] = ([], [QueueEffect.changeVisibility "r-4" 1200]) ∧
    process_message c4EnvThrottle c4MsgW =
      (false, [QueueEffect.changeVisibility "r-4" 1200,
        QueueEffect.changeVisibility "r-4" 15]) ∧
    (lambda_handler c4EnvThrottle [c4MsgW]).1 = ["m-4"] ∧
    process_message c4EnvExn c4MsgW =
      (false, [QueueEffect.changeVisibility "r-4" 1200,
        QueueEffect.changeVisibility "r-4" 15]) ∧
    (lambda_handler c4EnvExn [c4MsgW]).1 = ["m-4"] := by
  have hdup := (c4_launch_failure c4EnvDup c4MsgW _ rfl (by decide) (by decide)).1 rfl
  have hthr := (c4_launch_failure c4EnvThrottle c4MsgW _ rfl (by decide) (by decide)).2.1
    "ThrottlingException" (by decide) rfl
  have hexn := (c4_launch_failure c4EnvExn c4MsgW _ rfl (by decide) (by decide)).2.2 rfl
  refine ⟨by simpa using hdup.1, by simpa using hdup.2 (by decide),
    by simpa using hthr.1, hthr.2 (by decide),
    by simpa using hexn.1, hexn.2 (by decide)⟩

/-- C5: the capability resolver is a total function (it never raises) and
resolves in the documented order: the registry entry on exact match;
otherwise, when the identifier contains a dot, the registry entry of the
suffix after the first dot when that is registered; otherwise the default
record, whose three capability flags are all false. -/
theorem c5_capability_resolver (id : String) :
    (∀ c, regLookup id = some c → ModelConfig.create id = c) ∧
    (regLookup id = none →
      ∀ base c, afterFirstDotS id = some base → regLookup base = some c →
        ModelConfig.create id = c) ∧
    (regLookup id = none →
      (∀ base, afterFirstDotS id = some base → regLookup base = none) →
      ModelConfig.create id = DEFAULT_CONFIG) ∧
    DEFAULT_CONFIG.supports_document_block = false ∧
    DEFAULT_CONFIG.supports_citation = false ∧
    DEFAULT_CONFIG.supports_caching = false := by
  refine ⟨?_, ?_, ?_, rfl, rfl, rfl⟩
  · intro c hc
    unfold ModelConfig.create
    rw [hc]
  · intro hmiss base c hbase hc
    unfold ModelConfig.create
    rw [hmiss]
    dsimp only
    rw [hbase]
    dsimp only
    rw [hc]
  · intro hmiss hall
    unfold ModelConfig.create
    rw [hmiss]
    dsimp only
    rcases hd : afterFirstDotS id with _ | base
    · rfl
    · dsimp only
      rw [hall base hd]

/-- Witness for `c5_capability_resolver`: an unknown identifier resolves
to the all-false default, and a region-prefixed identifier whose prefixed
form is unregistered resolves to the same record as its base form. -/
theorem c5_capability_resolver_witness :
    ModelConfig.create "totally-unknown-model-id" = DEFAULT_CONFIG ∧
    ModelConfig.create "br.anthropic.claude-3-haiku-20240307-v1:0" =
      ModelConfig.create "anthropic.claude-3-haiku-20240307-v1:0" := by
  constructor
  · refine (c5_capability_resolver "totally-unknown-model-id").2.2.1 rfl ?_
    intro base h
    rw [show afterFirstDotS "totally-unknown-model-id" = none from rfl] at h
    cases h
  · have h1 := (c5_capability_resolver "br.anthropic.claude-3-haiku-20240307-v1:0").2.1
      rfl "anthropic.claude-3-haiku-20240307-v1:0" _ rfl rfl
    have h2 := (c5_capability_resolver "anthropic.claude-3-haiku-20240307-v1:0").1 _ rfl
    rw [h1, h2]

/-- C6 counterexample: with the citation flag enabled and no images, the
identifier `anthropic.claude-sonnet-4-20250514-v1:0` resolves (exact
registry match) to a capability record whose embedded-document and
citation flags are both true, yet the selection predicate returns false —
because the source checks the suffix after the first dot against
`CITATION_SUPPORTED_MODELS` instead of consulting the resolved record
(and never tries the exact identifier first). -/
theorem c6_predicate_ignores_registry :
    should_use_citations true [] "anthropic.claude-sonnet-4-20250514-v1:0" false = false ∧
    (ModelConfig.create "anthropic.claude-sonnet-4-20250514-v1:0").supports_document_block
      = true ∧
    (ModelConfig.create "anthropic.claude-sonnet-4-20250514-v1:0").supports_citation
      = true := by
  refine ⟨by decide, by decide, by decide⟩

/-- C6 (amended): the selection predicate is false whenever the file set
contains images; for an image-free file set it is true exactly when the
global citation flag is enabled and the identifier's suffix after its
first dot (or the identifier itself, when dotless) is a member of
`CITATION_SUPPORTED_MODELS` — not when the registry-resolved capability
record has its embedded-document flag set. -/
theorem c6_embedded_document_predicate (flag : Bool) (paths : List String) (id : String) :
    should_use_citations flag paths id true = false ∧
    should_use_citations flag paths id false =
      (flag && decide (citationBase id ∈ CITATION_SUPPORTED_MODELS)) := by
  exact ⟨rfl, rfl⟩

/-- The combined text returned by the extractor is always the stripped
raw text. -/
theorem extract_json_snd (raw : String) : (extract_json_from_text raw).2 = pyStrip raw := by
  unfold extract_json_from_text pyStrip
  dsimp only
  split
  · rfl
  · split
    · rfl
    · split <;> rfl

/-- C7 counterexample: on raw text with no structured payload the
conversion synthesizes the fallback record, whose `shortExplanation` is
the source literal `"Failed to analyze JSON parse"` — not the claimed
literal `"parse failure"`. -/
theorem c7_short_explanation_literal :
    agent_message_to_dict "no structured payload here" =
      JValue.obj
        [("result", jstr "fail"), ("confidence", .num ⟨5, 1⟩),
         ("explanation", jstr "no structured payload here"),
         ("shortExplanation", jstr "Failed to analyze JSON parse")] ∧
    "Failed to analyze JSON parse" ≠ "parse failure" := by
  exact ⟨rfl, by decide⟩

/-- C7 (amended): whenever neither the marker-delimited extraction nor
the brace-matching fallback yields a parsable payload, the conversion
returns the fallback record with `result = "fail"`, `confidence = 0.5`,
`explanation` equal to the (stripped) raw combined text, and
`shortExplanation` equal to the source literal
`"Failed to analyze JSON parse"`. -/
theorem c7_fallback_record (raw : String)
    (h : (extract_json_from_text raw).1 = none) :
    agent_message_to_dict raw =
      JValue.obj
        [("result", jstr "fail"), ("confidence", .num ⟨5, 1⟩),
         ("explanation", jstr (pyStrip raw)),
         ("shortExplanation", jstr "Failed to analyze JSON parse")] := by
  have h2 := extract_json_snd raw
  unfold agent_message_to_dict
  rcases he : extract_json_from_text raw with ⟨p, comb⟩
  rw [he] at h h2
  dsimp only at h h2 ⊢
  subst h
  subst h2
  rfl

/-- Witness for `c7_fallback_record` at plain prose input. -/
theorem c7_fallback_record_witness :
    agent_message_to_dict "The document seems fine." =
      JValue.obj
        [("result", jstr "fail"), ("confidence", .num ⟨5, 1⟩),
         ("explanation", jstr (pyStrip "The document seems fine.")),
         ("shortExplanation", jstr "Failed to analyze JSON parse")] :=
  c7_fallback_record "The document seems fine." rfl

/-- Lookup distributes over append: the left list wins. -/
theorem jget_append (a b : List (String × JValue)) (k : String) :
    jget (a ++ b) k =
      match jget a k with
      | some v => some v
      | none => jget b k := by
  induction a with
  | nil => simp [jget]
  | cons kv rest ih =>
    rcases kv with ⟨k2, v2⟩
    by_cases h2 : k2 = k <;> simp [jget, h2, ih]

/-- `jsetd` at the written key: the present value wins, the default is
used otherwise. -/
theorem jget_jsetd_same (d : List (String × JValue)) (k : String) (v : JValue) :
    jget (jsetd d k v) k = some ((jget d k).getD v) := by
  unfold jsetd jhas
  rcases h : jget d k with _ | w
  · rw [if_neg (by simp [h]), jget_append, h]
    simp [jget]
  · rw [if_pos (by simp [h]), h]
    rfl

/-- `jsetd` leaves other keys untouched. -/
theorem jget_jsetd_other (d : List (String × JValue)) (k' : String) (v : JValue)
    (k : String) (h : k' ≠ k) : jget (jsetd d k' v) k = jget d k := by
  unfold jsetd
  split
  · rfl
  · rw [jget_append]
    rcases hk : jget d k with _ | w <;> simp [jget, h]

/-- `jset` at the written key. -/
theorem jget_jset_same (d : List (String × JValue)) (k : String) (v : JValue) :
    jget (jset d k v) k = some v := by
  induction d with
  | nil => simp [jset, jget]
  | cons kv rest ih =>
    rcases kv with ⟨k2, v2⟩
    by_cases h2 : k2 = k <;> simp [jset, jget, h2, ih]

/-- `jset` leaves other keys untouched. -/
theorem jget_jset_other (d : List (String × JValue)) (k' : String) (v : JValue)
    (k : String) (h : k' ≠ k) : jget (jset d k' v) k = jget d k := by
  induction d with
  | nil => simp [jset, jget, h]
  | cons kv rest ih =>
    rcases kv with ⟨k2, v2⟩
    by_cases h2 : k2 = k' <;> by_cases h3 : k2 = k <;>
      simp_all [jset, jget]

/-- The `verificationDetails` completion step leaves other keys alone. -/
theorem jget_ecVerification_other (d4 : List (String × JValue)) (k : String)
    (hk : k ≠ "verificationDetails") : jget (ecVerification d4) k = jget d4 k := by
  unfold ecVerification
  rcases hv : jget d4 "verificationDetails" with _ | v
  · rw [jget_append]
    rcases hk2 : jget d4 k with _ | w <;> simp [jget, Ne.symm hk]
  · rcases v with _ | b | n | s | l | o
    · rfl
    · rfl
    · rfl
    · rfl
    · rfl
    · dsimp only
      split
      · rfl
      · exact jget_jset_other _ "verificationDetails" _ k (Ne.symm hk)

/-- Absent `verificationDetails` is completed to an object holding an
empty `sourcesDetails` list. -/
theorem jget_ecVerification_none (d4 : List (String × JValue))
    (hv : jget d4 "verificationDetails" = none) :
    jget (ecVerification d4) "verificationDetails" =
      some (.obj [("sourcesDetails", .arr [])]) := by
  unfold ecVerification
  rw [hv]
  dsimp only
  rw [jget_append, hv]
  simp [jget]

/-- Object-shaped `verificationDetails` keeps its fields and gains an
empty `sourcesDetails` exactly when that key is missing. -/
theorem jget_ecVerification_obj (d4 : List (String × JValue)) (o : List (String × JValue))
    (hv : jget d4 "verificationDetails" = some (.obj o)) :
    jget (ecVerification d4) "verificationDetails" =
      some (.obj (if jhas o "sourcesDetails" then o
        else o ++ [("sourcesDetails", .arr [])])) := by
  unfold ecVerification
  rw [hv]
  dsimp only
  split
  · exact hv
  · rw [jget_jset_same]

/-- C8: after the field-completion block every final review record
carries the full type-appropriate field set — present fields keep their
values, absent fields receive the documented defaults (PDF side:
`extractedText = ""` and `pageNumber = 1`; IMAGE side:
`usedImageIndexes = []` and `boundingBoxes = []`), and
`verificationDetails.sourcesDetails` is completed nestedly — and the
claim's PDF scenario produces exactly the stated final record. -/
theorem c8_field_completion (d : List (String × JValue)) (hi : Bool)
    (_hvd : ∀ v, jget d "verificationDetails" = some v → ∃ o, v = JValue.obj o) :
    jget (ensureComplete d hi) "result" = some ((jget d "result").getD (jstr "fail")) ∧
    jget (ensureComplete d hi) "confidence" =
      some ((jget d "confidence").getD (.num ⟨5, 1⟩)) ∧
    jget (ensureComplete d hi) "explanation" =
      some ((jget d "explanation").getD (jstr "No explanation provided")) ∧
    jget (ensureComplete d hi) "shortExplanation" =
      some ((jget d "shortExplanation").getD (jstr "No short explanation provided")) ∧
    (jget d "verificationDetails" = none →
      jget (ensureComplete d hi) "verificationDetails" =
        some (.obj [("sourcesDetails", .arr [])])) ∧
    (∀ o, jget d "verificationDetails" = some (.obj o) →
      jget (ensureComplete d hi) "verificationDetails" =
        some (.obj (if jhas o "sourcesDetails" then o
          else o ++ [("sourcesDetails", .arr [])]))) ∧
    (hi = true →
      jget (ensureComplete d hi) "usedImageIndexes" =
        some ((jget d "usedImageIndexes").getD (.arr [])) ∧
      jget (ensureComplete d hi) "boundingBoxes" =
        some ((jget d "boundingBoxes").getD (.arr []))) ∧
    (hi = false →
      jget (ensureComplete d hi) "extractedText" =
        some ((jget d "extractedText").getD (jstr "")) ∧
      jget (ensureComplete d hi) "pageNumber" =
        some ((jget d "pageNumber").getD (.num ⟨1, 0⟩))) ∧
    reviewPipeline c8ScenarioRaw false = some c8ScenarioFinal := by
  have hchain : jget (jsetd (jsetd (jsetd (jsetd d "result" (jstr "fail"))
      "confidence" (.num ⟨5, 1⟩)) "explanation" (jstr "No explanation provided"))
      "shortExplanation" (jstr "No short explanation provided")) "verificationDetails" =
      jget d "verificationDetails" := by
    rw [jget_jsetd_other _ "shortExplanation" _ _ (by decide),
      jget_jsetd_other _ "explanation" _ _ (by decide),
      jget_jsetd_other _ "confidence" _ _ (by decide),
      jget_jsetd_other _ "result" _ _ (by decide)]
  unfold ensureComplete
  dsimp only
  refine ⟨?_, ?_, ?_, ?_, ?_, ?_, ?_, ?_, rfl⟩
  · cases hi
    · rw [if_neg (by decide),
        jget_jsetd_other _ "pageNumber" _ "result" (by decide),
        jget_jsetd_other _ "extractedText" _ "result" (by decide),
        jget_ecVerification_other _ "result" (by decide),
        jget_jsetd_other _ "shortExplanation" _ "result" (by decide),
        jget_jsetd_other _ "explanation" _ "result" (by decide),
        jget_jsetd_other _ "confidence" _ "result" (by decide),
        jget_jsetd_same]
    · rw [if_pos rfl,
        jget_jsetd_other _ "boundingBoxes" _ "result" (by decide),
        jget_jsetd_other _ "usedImageIndexes" _ "result" (by decide),
        jget_ecVerification_other _ "result" (by decide),
        jget_jsetd_other _ "shortExplanation" _ "result" (by decide),
        jget_jsetd_other _ "explanation" _ "result" (by decide),
        jget_jsetd_other _ "confidence" _ "result" (by decide),
        jget_jsetd_same]
  · cases hi
    · rw [if_neg (by decide),
        jget_jsetd_other _ "pageNumber" _ "confidence" (by decide),
        jget_jsetd_other _ "extractedText" _ "confidence" (by decide),
        jget_ecVerification_other _ "confidence" (by decide),
        jget_jsetd_other _ "shortExplanation" _ "confidence" (by decide),
        jget_jsetd_other _ "explanation" _ "confidence" (by decide),
        jget_jsetd_same,
        jget_jsetd_other _ "result" _ "confidence" (by decide)]
    · rw [if_pos rfl,
        jget_jsetd_other _ "boundingBoxes" _ "confidence" (by decide),
        jget_jsetd_other _ "usedImageIndexes" _ "confidence" (by decide),
        jget_ecVerification_other _ "confidence" (by decide),
        jget_jsetd_other _ "shortExplanation" _ "confidence" (by decide),
        jget_jsetd_other _ "explanation" _ "confidence" (by decide),
        jget_jsetd_same,
        jget_jsetd_other _ "result" _ "confidence" (by decide)]
  · cases hi
    · rw [if_neg (by decide),
        jget_jsetd_other _ "pageNumber" _ "explanation" (by decide),
        jget_jsetd_other _ "extractedText" _ "explanation" (by decide),
        jget_ecVerification_other _ "explanation" (by decide),
        jget_jsetd_other _ "shortExplanation" _ "explanation" (by decide),
        jget_jsetd_same,
        jget_jsetd_other _ "confidence" _ "explanation" (by decide),
        jget_jsetd_other _ "result" _ "explanation" (by decide)]
    · rw [if_pos rfl,
        jget_jsetd_other _ "boundingBoxes" _ "explanation" (by decide),
        jget_jsetd_other _ "usedImageIndexes" _ "explanation" (by decide),
        jget_ecVerification_other _ "explanation" (by decide),
        jget_jsetd_other _ "shortExplanation" _ "explanation" (by decide),
        jget_jsetd_same,
        jget_jsetd_other _ "confidence" _ "explanation" (by decide),
        jget_jsetd_other _ "result" _ "explanation" (by decide)]
  · cases hi
    · rw [if_neg (by decide),
        jget_jsetd_other _ "pageNumber" _ "shortExplanation" (by decide),
        jget_jsetd_other _ "extractedText" _ "shortExplanation" (by decide),
        jget_ecVerification_other _ "shortExplanation" (by decide),
        jget_jsetd_same,
        jget_jsetd_other _ "explanation" _ "shortExplanation" (by decide),
        jget_jsetd_other _ "confidence" _ "shortExplanation" (by decide),
        jget_jsetd_other _ "result" _ "shortExplanation" (by decide)]
    · rw [if_pos rfl,
        jget_jsetd_other _ "boundingBoxes" _ "shortExplanation" (by decide),
        jget_jsetd_other _ "usedImageIndexes" _ "shortExplanation" (by decide),
        jget_ecVerification_other _ "shortExplanation" (by decide),
        jget_jsetd_same,
        jget_jsetd_other _ "explanation" _ "shortExplanation" (by decide),
        jget_jsetd_other _ "confidence" _ "shortExplanation" (by decide),
        jget_jsetd_other _ "result" _ "shortExplanation" (by decide)]
  · intro hv
    cases hi
    · rw [if_neg (by decide),
        jget_jsetd_other _ "pageNumber" _ "verificationDetails" (by decide),
        jget_jsetd_other _ "extractedText" _ "verificationDetails" (by decide),
        jget_ecVerification_none _ (hchain.trans hv)]
    · rw [if_pos rfl,
        jget_jsetd_other _ "boundingBoxes" _ "verificationDetails" (by decide),
        jget_jsetd_other _ "usedImageIndexes" _ "verificationDetails" (by decide),
        jget_ecVerification_none _ (hchain.trans hv)]
  · intro o hv
    cases hi
    · rw [if_neg (by decide),
        jget_jsetd_other _ "pageNumber" _ "verificationDetails" (by decide),
        jget_jsetd_other _ "extractedText" _ "verificationDetails" (by decide),
        jget_ecVerification_obj _ o (hchain.trans hv)]
    · rw [if_pos rfl,
        jget_jsetd_other _ "boundingBoxes" _ "verificationDetails" (by decide),
        jget_jsetd_other _ "usedImageIndexes" _ "verificationDetails" (by decide),
        jget_ecVerification_obj _ o (hchain.trans hv)]
  · intro h
    subst h
    rw [if_pos rfl]
    constructor
    · rw [jget_jsetd_other _ "boundingBoxes" _ "usedImageIndexes" (by decide),
        jget_jsetd_same,
        jget_ecVerification_other _ "usedImageIndexes" (by decide),
        jget_jsetd_other _ "shortExplanation" _ "usedImageIndexes" (by decide),
        jget_jsetd_other _ "explanation" _ "usedImageIndexes" (by decide),
        jget_jsetd_other _ "confidence" _ "usedImageIndexes" (by decide),
        jget_jsetd_other _ "result" _ "usedImageIndexes" (by decide)]
    · rw [jget_jsetd_same,
        jget_jsetd_other _ "usedImageIndexes" _ "boundingBoxes" (by decide),
        jget_ecVerification_other _ "boundingBoxes" (by decide),
        jget_jsetd_other _ "shortExplanation" _ "boundingBoxes" (by decide),
        jget_jsetd_other _ "explanation" _ "boundingBoxes" (by decide),
        jget_jsetd_other _ "confidence" _ "boundingBoxes" (by decide),
        jget_jsetd_other _ "result" _ "boundingBoxes" (by decide)]
  · intro h
    subst h
    rw [if_neg (by decide)]
    constructor
    · rw [jget_jsetd_other _ "pageNumber" _ "extractedText" (by decide),
        jget_jsetd_same,
        jget_ecVerification_other _ "extractedText" (by decide),
        jget_jsetd_other _ "shortExplanation" _ "extractedText" (by decide),
        jget_jsetd_other _ "explanation" _ "extractedText" (by decide),
        jget_jsetd_other _ "confidence" _ "extractedText" (by decide),
        jget_jsetd_other _ "result" _ "extractedText" (by decide)]
    · rw [jget_jsetd_same,
        jget_jsetd_other _ "extractedText" _ "pageNumber" (by decide),
        jget_ecVerification_other _ "pageNumber" (by decide),
        jget_jsetd_other _ "shortExplanation" _ "pageNumber" (by decide),
        jget_jsetd_other _ "explanation" _ "pageNumber" (by decide),
        jget_jsetd_other _ "confidence" _ "pageNumber" (by decide),
        jget_jsetd_other _ "result" _ "pageNumber" (by decide)]

/-- Witness for `c8_field_completion`: the claim's own scenario, pulled
out of the theorem at the scenario's parsed payload (whose
`verificationDetails` is absent, satisfying the hypothesis). -/
theorem c8_field_completion_witness :
    reviewPipeline c8ScenarioRaw false = some c8ScenarioFinal := by
  have h := c8_field_completion [] false (by intro v hv; cases hv)
  exact h.2.2.2.2.2.2.2.2

/-! Round-trip machinery for C9: character and digit facts. -/

/-- Code point of a digit character. -/
theorem toNat_digitChar (d : Nat) (h : d < 10) : (digitChar d).toNat = 48 + d := by
  interval_cases d <;> decide

/-- Digit characters are digits. -/
theorem isDigitC_digitChar (d : Nat) (h : d < 10) : isDigitC (digitChar d) = true := by
  interval_cases d <;> decide

/-- `digitVal` inverts `digitChar` below 10. -/
theorem digitVal_digitChar (d : Nat) (h : d < 10) : digitVal (digitChar d) = d := by
  interval_cases d <;> decide

/-- `hexVal` inverts `hexDigitChar` below 16. -/
theorem hexVal_hexDigitChar (d : Nat) (h : d < 16) : hexVal (hexDigitChar d) = some d := by
  interval_cases d <;> decide

/-- A digit character is none of the parser's dispatch characters. -/
theorem digit_not_special (c : Char) (h : isDigitC c = true) :
    c ≠ quoteC ∧ c ≠ lbraceC ∧ c ≠ lbrackC ∧ c ≠ 't' ∧ c ≠ 'f' ∧ c ≠ 'n' ∧ c ≠ '-' ∧
      isJsonWs c = false ∧ c ≠ rbrackC ∧ c ≠ rbraceC := by
  unfold isDigitC at h
  simp only [Bool.and_eq_true, decide_eq_true_eq] at h
  obtain ⟨h1, h2⟩ := h
  have hne : ∀ (x : Char), x.toNat < 48 ∨ 57 < x.toNat → c ≠ x := by
    intro x hx hc
    subst hc
    rcases hx with hx | hx <;> omega
  refine ⟨hne _ (by decide), hne _ (by decide), hne _ (by decide), hne _ (by decide),
    hne _ (by decide), hne _ (by decide), hne _ (by decide), ?_,
    hne _ (by decide), hne _ (by decide)⟩
  unfold isJsonWs
  simp only [Bool.or_eq_false_iff, decide_eq_false_iff_not]
  exact ⟨⟨⟨hne ' ' (by decide), hne '\t' (by decide)⟩, hne '\n' (by decide)⟩,
    hne '\r' (by decide)⟩

/-- Zero produces no digits at any fuel. -/
theorem natDigitsAux_zero (fuel : Nat) : natDigitsAux fuel 0 = [] := by
  cases fuel <;> simp [natDigitsAux]

/-- All characters emitted by `natDigitsAux` are digits. -/
theorem natDigitsAux_digits (fuel : Nat) :
    ∀ n, n ≤ fuel → ∀ c ∈ natDigitsAux fuel n, isDigitC c = true := by
  induction fuel with
  | zero => intro n _ c hc; simp [natDigitsAux] at hc
  | succ fuel ih =>
    intro n hn c hc
    unfold natDigitsAux at hc
    split at hc
    · simp at hc
    · rename_i hne
      rcases List.mem_cons.1 hc with h | h
      · subst h
        exact isDigitC_digitChar _ (Nat.mod_lt _ (by omega))
      · exact ih (n / 10) (by omega) c h

/-- All characters of `natDigits` are digits. -/
theorem natDigits_digits (n : Nat) : ∀ c ∈ natDigits n, isDigitC c = true := by
  unfold natDigits
  split
  · intro c hc
    simp at hc
    subst hc
    decide
  · intro c hc
    exact natDigitsAux_digits n n (le_refl n) c (List.mem_reverse.1 hc)

/-- Folding the digit accumulator over a list from an arbitrary seed. -/
theorem digitsToNat_foldl (y : List Char) :
    ∀ init : Nat,
      List.foldl (fun a c => a * 10 + digitVal c) init y =
        init * 10 ^ y.length + digitsToNat y := by
  induction y with
  | nil => intro init; simp [digitsToNat]
  | cons c ys ih =>
    intro init
    have h1 := ih (init * 10 + digitVal c)
    have h2 := ih (digitVal c)
    simp only [List.foldl_cons, List.length_cons]
    rw [h1]
    have h3 : digitsToNat (c :: ys) = digitVal c * 10 ^ ys.length + digitsToNat ys := by
      unfold digitsToNat
      simpa using h2
    rw [h3]
    ring

/-- The value of concatenated digit strings. -/
theorem digitsToNat_append (x y : List Char) :
    digitsToNat (x ++ y) = digitsToNat x * 10 ^ y.length + digitsToNat y := by
  unfold digitsToNat
  rw [List.foldl_append]
  exact digitsToNat_foldl y _

/-- Leading zeros do not change the value. -/
theorem digitsToNat_replicate_zero (k : Nat) (ds : List Char) :
    digitsToNat (List.replicate k '0' ++ ds) = digitsToNat ds := by
  rw [digitsToNat_append]
  have : digitsToNat (List.replicate k '0') = 0 := by
    induction k with
    | zero => rfl
    | succ k ih =>
      have : List.replicate (k + 1) '0' = '0' :: List.replicate k '0' := rfl
      rw [this]
      unfold digitsToNat at ih ⊢
      simpa [digitVal] using ih
  rw [this]
  simp

/-- `digitsToNat` inverts `natDigitsAux`-then-reverse. -/
theorem digitsToNat_natDigitsAux (fuel : Nat) :
    ∀ n, n ≤ fuel → digitsToNat ((natDigitsAux fuel n).reverse) = n := by
  induction fuel with
  | zero =>
    intro n hn
    interval_cases n
    rfl
  | succ fuel ih =>
    intro n hn
    unfold natDigitsAux
    split
    · rename_i h0
      subst h0
      rfl
    · rename_i hne
      rw [List.reverse_cons, digitsToNat_append]
      rw [ih (n / 10) (by omega)]
      have hd : digitsToNat [digitChar (n % 10)] = n % 10 := by
        unfold digitsToNat
        simp [digitVal_digitChar _ (Nat.mod_lt _ (by omega))]
      rw [hd]
      simp
      omega

/-- `digitsToNat` inverts `natDigits`. -/
theorem digitsToNat_natDigits (n : Nat) : digitsToNat (natDigits n) = n := by
  unfold natDigits
  split
  · rename_i h
    subst h
    rfl
  · exact digitsToNat_natDigitsAux n n (le_refl n)

/-- The reversed digit emission of a positive number starts with a
nonzero digit. -/
theorem natDigitsAux_rev_head (fuel : Nat) :
    ∀ n, 1 ≤ n → n ≤ fuel →
      ∃ d t, (natDigitsAux fuel n).reverse = digitChar d :: t ∧ 1 ≤ d ∧ d < 10 := by
  induction fuel with
  | zero => intro n h1 h2; omega
  | succ fuel ih =>
    intro n h1 h2
    unfold natDigitsAux
    rw [if_neg (by omega)]
    by_cases hq : n / 10 = 0
    · rw [hq, natDigitsAux_zero]
      refine ⟨n % 10, [], by simp, by omega, Nat.mod_lt _ (by omega)⟩
    · obtain ⟨d, t, ht, hd1, hd2⟩ := ih (n / 10) (by omega) (by omega)
      exact ⟨d, t ++ [digitChar (n % 10)], by simp [ht], hd1, hd2⟩

/-- `natDigits` is never empty. -/
theorem natDigits_ne_nil (n : Nat) : natDigits n ≠ [] := by
  unfold natDigits
  split
  · simp
  · rename_i h
    obtain ⟨d, t, ht, _, _⟩ := natDigitsAux_rev_head n n (by omega) (le_refl n)
    simp [ht]

/-- A positive number's digit string does not start with `'0'`. -/
theorem natDigits_head_ne_zero (n : Nat) (h : n ≠ 0) :
    ∀ c t, natDigits n = c :: t → c ≠ '0' := by
  unfold natDigits
  rw [if_neg h]
  intro c t hct
  obtain ⟨d, t', ht', hd1, hd2⟩ := natDigitsAux_rev_head n n (by omega) (le_refl n)
  rw [ht'] at hct
  have hc : c = digitChar d := by
    have := (List.cons.injEq _ _ _ _ ▸ hct).1
    exact this.symm
  subst hc
  intro hzero
  have := congrArg Char.toNat hzero
  rw [toNat_digitChar d hd2] at this
  revert this
  simp
  omega

/-- `takeWhile`/`dropWhile` split an all-satisfying prefix off exactly. -/
theorem takeWhile_dropWhile_append (p : Char → Bool) (ds r : List Char)
    (hds : ∀ c ∈ ds, p c = true) (hr : ∀ c t, r = c :: t → p c = false) :
    (ds ++ r).takeWhile p = ds ∧ (ds ++ r).dropWhile p = r := by
  induction ds with
  | nil =>
    rcases r with _ | ⟨c, t⟩
    · simp
    · have := hr c t rfl
      simp [List.takeWhile, List.dropWhile, this]
  | cons d ds ih =>
    have hd := hds d (by simp)
    have ih2 := ih (fun c hc => hds c (by simp [hc]))
    simp [List.takeWhile, List.dropWhile, hd, ih2.1, ih2.2]

/-- Unpack `numSafe` for a nonempty continuation. -/
theorem numSafe_head (r : List Char) (hr : numSafe r = true) :
    ∀ c t, r = c :: t → isDigitC c = false ∧ c ≠ '.' ∧ c ≠ 'e' ∧ c ≠ 'E' := by
  intro c t hct
  subst hct
  unfold numSafe numExt at hr
  simp only [Bool.not_eq_true', Bool.or_eq_false_iff, decide_eq_false_iff_not] at hr
  exact ⟨hr.1.1.1, hr.1.1.2, hr.1.2, hr.2⟩

/-- A number token followed by safe input has no exponent part to
consume. -/
theorem parseExpPart_numSafe (m sc : Nat) (rest : List Char) (hr : numSafe rest = true) :
    parseExpPart m sc rest = some (⟨(m : Int), sc⟩, rest) := by
  unfold parseExpPart
  rcases rest with _ | ⟨c0, t0⟩
  · rfl
  · have h := numSafe_head _ hr c0 t0 rfl
    dsimp only
    rw [if_neg]
    rintro (h1 | h1)
    · exact h.2.2.1 h1
    · exact h.2.2.2 h1

/-- Core of the number round trip, for an arbitrary all-digit string
`padded` of more than `scale` digits whose integer part has no bad
leading zero. -/
theorem parseNumAbs_digits_core (padded : List Char) (s : Nat) (rest : List Char)
    (hr : numSafe rest = true)
    (hdig : ∀ c ∈ padded, isDigitC c = true)
    (hlen : s + 1 ≤ padded.length)
    (hlead : ∀ c t, padded.take (padded.length - s) = c :: t → ¬(c = '0' ∧ t ≠ [])) :
    parseNumAbs
        ((if s = 0 then padded
          else padded.take (padded.length - s) ++ '.' :: padded.drop (padded.length - s)) ++
          rest) =
      some (⟨(digitsToNat padded : Int), s⟩, rest) := by
  have hrestHead : ∀ c t, rest = c :: t → isDigitC c = false :=
    fun c t hct => (numSafe_head rest hr c t hct).1
  rcases Nat.eq_zero_or_pos s with hs | hs
  · subst hs
    rw [if_pos rfl]
    unfold parseNumAbs
    dsimp only
    have hsplit := takeWhile_dropWhile_append isDigitC padded rest hdig hrestHead
    rw [hsplit.1, hsplit.2]
    split
    · simp at hlen
    · rename_i d0 dtail
      rw [if_neg (hlead d0 dtail (by rw [Nat.sub_zero, List.take_length]))]
      split <;>
        first
          | (rename_i r2 heq2
             exact absurd rfl ((numSafe_head _ hr '.' r2 heq2).2.1))
          | (rename_i r2
             exact absurd rfl ((numSafe_head _ hr '.' r2 rfl).2.1))
          | exact parseExpPart_numSafe _ _ _ hr
          | (rename_i hno
             exact (hno _ rfl).elim)
  · rw [if_neg (by omega)]
    have hiplen : (padded.take (padded.length - s)).length = padded.length - s := by
      rw [List.length_take]
      omega
    have hfplen : (padded.drop (padded.length - s)).length = s := by
      simp [List.length_drop]
      omega
    have hipdig : ∀ c ∈ padded.take (padded.length - s), isDigitC c = true :=
      fun c hc => hdig c (List.take_subset _ _ hc)
    have hfpdig : ∀ c ∈ padded.drop (padded.length - s), isDigitC c = true :=
      fun c hc => hdig c (List.drop_subset _ _ hc)
    have hassoc :
        (padded.take (padded.length - s) ++ '.' :: padded.drop (padded.length - s)) ++ rest =
          padded.take (padded.length - s) ++
            ('.' :: (padded.drop (padded.length - s) ++ rest)) := by
      simp
    rw [hassoc]
    unfold parseNumAbs
    dsimp only
    have hsplit := takeWhile_dropWhile_append isDigitC (padded.take (padded.length - s))
      ('.' :: (padded.drop (padded.length - s) ++ rest)) hipdig
      (by intro c t hct; cases hct; decide)
    rw [hsplit.1, hsplit.2]
    split
    · rename_i heq
      rw [heq] at hiplen
      simp at hiplen
      omega
    · rename_i d0 dtail heq
      rw [if_neg (hlead d0 dtail heq)]
      split
      · rename_i r2 heq2
        injection heq2 with h2a h2b
        subst h2b
        have hsplit2 := takeWhile_dropWhile_append isDigitC (padded.drop (padded.length - s))
          rest hfpdig hrestHead
        rw [hsplit2.1, hsplit2.2]
        rw [if_neg (by
          intro hemp
          rw [List.isEmpty_iff] at hemp
          rw [hemp] at hfplen
          simp at hfplen
          omega)]
        rw [parseExpPart_numSafe _ _ _ hr]
        have hval : digitsToNat (padded.take (padded.length - s)) *
            10 ^ (padded.drop (padded.length - s)).length +
            digitsToNat (padded.drop (padded.length - s)) = digitsToNat padded := by
          rw [← digitsToNat_append, List.take_append_drop]
        rw [hval, hfplen]
      · rename_i hno
        exact (hno (padded.drop (padded.length - s) ++ rest) rfl).elim

/-- The digit-string serializer round-trips through `parseNumAbs`. -/
theorem parseNumAbs_serNumAbs (a s : Nat) (rest : List Char) (hr : numSafe rest = true) :
    parseNumAbs (serNumAbs a s ++ rest) = some (⟨(a : Int), s⟩, rest) := by
  have hne := natDigits_ne_nil a
  have hdlen : 1 ≤ (natDigits a).length := by
    rcases h : natDigits a with _ | ⟨c, t⟩
    · exact absurd h hne
    · simp
  unfold serNumAbs
  dsimp only
  have hdig : ∀ c ∈ (if (natDigits a).length < s + 1 then
      List.replicate (s + 1 - (natDigits a).length) '0' ++ natDigits a else natDigits a),
      isDigitC c = true := by
    split
    · intro c hc
      rcases List.mem_append.1 hc with h | h
      · rw [List.eq_of_mem_replicate h]
        decide
      · exact natDigits_digits a c h
    · exact natDigits_digits a
  have hlen : s + 1 ≤ (if (natDigits a).length < s + 1 then
      List.replicate (s + 1 - (natDigits a).length) '0' ++ natDigits a else natDigits a).length := by
    split
    · rename_i hlt
      simp
      omega
    · rename_i hge
      omega
  have hval : digitsToNat (if (natDigits a).length < s + 1 then
      List.replicate (s + 1 - (natDigits a).length) '0' ++ natDigits a else natDigits a) = a := by
    split
    · rw [digitsToNat_replicate_zero, digitsToNat_natDigits]
    · rw [digitsToNat_natDigits]
  have hlead : ∀ c t, (if (natDigits a).length < s + 1 then
      List.replicate (s + 1 - (natDigits a).length) '0' ++ natDigits a else natDigits a).take
        ((if (natDigits a).length < s + 1 then
          List.replicate (s + 1 - (natDigits a).length) '0' ++ natDigits a
          else natDigits a).length - s) = c :: t →
      ¬(c = '0' ∧ t ≠ []) := by
    split
    · rename_i hlt
      intro c t hct hand
      have hplen : (List.replicate (s + 1 - (natDigits a).length) '0' ++ natDigits a).length
          = s + 1 := by
        simp
        omega
      rw [hplen] at hct
      have : (c :: t).length = ((List.replicate (s + 1 - (natDigits a).length) '0' ++
          natDigits a).take (s + 1 - s)).length := by rw [hct]
      simp [List.length_take, hplen] at this
      have ht : t = [] := by
        rcases t with _ | _
        · rfl
        · simp at this
          try omega
      exact hand.2 ht
    · rename_i hge
      by_cases ha : a = 0
      · subst ha
        intro c t hct hand
        have h0 : natDigits 0 = ['0'] := rfl
        rw [h0] at hct hge
        simp at hge
        have hs0 : s = 0 := by omega
        rw [hs0] at hct
        simp at hct
        rcases hct with ⟨hc, ht⟩
        exact hand.2 ht
      · intro c t hct hand
        rcases hd : natDigits a with _ | ⟨d0, dt⟩
        · exact absurd hd hne
        · rw [hd] at hct
          have hk : 1 ≤ (d0 :: dt).length - s := by
            rw [← hd]
            have : s + 1 ≤ (natDigits a).length := by omega
            omega
          rcases hk2 : (d0 :: dt).length - s with _ | k
          · omega
          · rw [hk2] at hct
            simp [List.take] at hct
            have hc : c = d0 := hct.1.symm
            exact natDigits_head_ne_zero a ha d0 dt hd (by rw [← hc]; exact hand.1)
  have hcore := parseNumAbs_digits_core _ s rest hr hdig hlen hlead
  rw [hval] at hcore
  exact hcore

/-- `skipWs` keeps a non-whitespace head. -/
theorem skipWs_cons_neg (c : Char) (cs : List Char) (h : isJsonWs c = false) :
    skipWs (c :: cs) = c :: cs := by
  simp [skipWs, List.dropWhile, h]

/-- `skipWs` drops a whitespace head. -/
theorem skipWs_cons_pos (c : Char) (cs : List Char) (h : isJsonWs c = true) :
    skipWs (c :: cs) = skipWs cs := by
  simp [skipWs, List.dropWhile, h]

/-- Rebuilding a string from its characters is the identity. -/
theorem string_mk_toList (s : String) : String.mk s.toList = s := rfl

/-- `parseStrChars` at a closing quote. -/
theorem psc_quote (f : Nat) (rest : List Char) :
    parseStrChars (f + 1) (quoteC :: rest) = some ([], rest) := rfl

/-- `parseStrChars` at an escaped quote. -/
theorem psc_escq (f : Nat) (rest : List Char) :
    parseStrChars (f + 1) (bslashC :: quoteC :: rest) =
      (parseStrChars f rest).map fun p => (quoteC :: p.1, p.2) := rfl

/-- `parseStrChars` at an escaped backslash. -/
theorem psc_escb (f : Nat) (rest : List Char) :
    parseStrChars (f + 1) (bslashC :: bslashC :: rest) =
      (parseStrChars f rest).map fun p => (bslashC :: p.1, p.2) := rfl

/-- `parseStrChars` at `\b`. -/
theorem psc_esc8 (f : Nat) (rest : List Char) :
    parseStrChars (f + 1) (bslashC :: 'b' :: rest) =
      (parseStrChars f rest).map fun p => (Char.ofNat 8 :: p.1, p.2) := rfl

/-- `parseStrChars` at `\t`. -/
theorem psc_esc9 (f : Nat) (rest : List Char) :
    parseStrChars (f + 1) (bslashC :: 't' :: rest) =
      (parseStrChars f rest).map fun p => (Char.ofNat 9 :: p.1, p.2) := rfl

/-- `parseStrChars` at `\n`. -/
theorem psc_esc10 (f : Nat) (rest : List Char) :
    parseStrChars (f + 1) (bslashC :: 'n' :: rest) =
      (parseStrChars f rest).map fun p => (Char.ofNat 10 :: p.1, p.2) := rfl

/-- `parseStrChars` at `\f`. -/
theorem psc_esc12 (f : Nat) (rest : List Char) :
    parseStrChars (f + 1) (bslashC :: 'f' :: rest) =
      (parseStrChars f rest).map fun p => (Char.ofNat 12 :: p.1, p.2) := rfl

/-- `parseStrChars` at `\r`. -/
theorem psc_esc13 (f : Nat) (rest : List Char) :
    parseStrChars (f + 1) (bslashC :: 'r' :: rest) =
      (parseStrChars f rest).map fun p => (Char.ofNat 13 :: p.1, p.2) := rfl

/-- `parseStrChars` at a `\u00XX` escape. -/
theorem psc_escu (f : Nat) (h3 h4 : Char) (a b : Nat) (rest : List Char)
    (hh3 : hexVal h3 = some a) (hh4 : hexVal h4 = some b) :
    parseStrChars (f + 1) (bslashC :: 'u' :: '0' :: '0' :: h3 :: h4 :: rest) =
      (parseStrChars f rest).map
        fun p => (Char.ofNat (((0 * 16 + 0) * 16 + a) * 16 + b) :: p.1, p.2) := by
  rw [parseStrChars.eq_def]
  dsimp only
  rw [if_neg (by decide), if_pos rfl, if_neg (by decide), if_neg (by decide),
    if_neg (by decide), if_neg (by decide), if_neg (by decide), if_neg (by decide),
    if_neg (by decide), if_neg (by decide), if_pos rfl,
    show hexVal '0' = some 0 from rfl, hh3, hh4]

/-- `parseStrChars` at a verbatim character. -/
theorem psc_verb (f : Nat) (c : Char) (rest : List Char) (h1 : c ≠ quoteC)
    (h2 : c ≠ bslashC) (h3 : ¬c.toNat < 32) :
    parseStrChars (f + 1) (c :: rest) =
      (parseStrChars f rest).map fun p => (c :: p.1, p.2) := by
  rw [parseStrChars.eq_def]
  dsimp only
  rw [if_neg h1, if_neg h2, if_neg h3]

/-- The canonical escape of a string parses back to the string, up to
the closing quote. -/
theorem parseStrChars_escape (s : List Char) :
    ∀ (fuel : Nat) (rest : List Char), s.length + 1 ≤ fuel →
      parseStrChars fuel (s.flatMap escChar ++ quoteC :: rest) = some (s, rest) := by
  induction s with
  | nil =>
    intro fuel rest hf
    rcases fuel with _ | f
    · omega
    · show parseStrChars (f + 1) (quoteC :: rest) = some ([], rest)
      rfl
  | cons c cs ih =>
    intro fuel rest hf
    rcases fuel with _ | f
    · omega
    have hih := ih f rest (by simp at hf ⊢; omega)
    have hflat : ((c :: cs).flatMap escChar) ++ quoteC :: rest =
        escChar c ++ (cs.flatMap escChar ++ quoteC :: rest) := by simp
    rw [hflat]
    by_cases h1 : c = quoteC
    · subst h1
      rw [show escChar quoteC = [bslashC, quoteC] from rfl]
      rw [show ([bslashC, quoteC] : List Char) ++ (cs.flatMap escChar ++ quoteC :: rest) =
        bslashC :: quoteC :: (cs.flatMap escChar ++ quoteC :: rest) from rfl]
      rw [psc_escq, hih]
      rfl
    by_cases h2 : c = bslashC
    · subst h2
      rw [show escChar bslashC = [bslashC, bslashC] from rfl]
      rw [show ([bslashC, bslashC] : List Char) ++ (cs.flatMap escChar ++ quoteC :: rest) =
        bslashC :: bslashC :: (cs.flatMap escChar ++ quoteC :: rest) from rfl]
      rw [psc_escb, hih]
      rfl
    by_cases h3 : c = Char.ofNat 8
    · subst h3
      rw [show escChar (Char.ofNat 8) = [bslashC, 'b'] from rfl]
      rw [show ([bslashC, 'b'] : List Char) ++ (cs.flatMap escChar ++ quoteC :: rest) =
        bslashC :: 'b' :: (cs.flatMap escChar ++ quoteC :: rest) from rfl]
      rw [psc_esc8, hih]
      rfl
    by_cases h4 : c = Char.ofNat 9
    · subst h4
      rw [show escChar (Char.ofNat 9) = [bslashC, 't'] from rfl]
      rw [show ([bslashC, 't'] : List Char) ++ (cs.flatMap escChar ++ quoteC :: rest) =
        bslashC :: 't' :: (cs.flatMap escChar ++ quoteC :: rest) from rfl]
      rw [psc_esc9, hih]
      rfl
    by_cases h5 : c = Char.ofNat 10
    · subst h5
      rw [show escChar (Char.ofNat 10) = [bslashC, 'n'] from rfl]
      rw [show ([bslashC, 'n'] : List Char) ++ (cs.flatMap escChar ++ quoteC :: rest) =
        bslashC :: 'n' :: (cs.flatMap escChar ++ quoteC :: rest) from rfl]
      rw [psc_esc10, hih]
      rfl
    by_cases h6 : c = Char.ofNat 12
    · subst h6
      rw [show escChar (Char.ofNat 12) = [bslashC, 'f'] from rfl]
      rw [show ([bslashC, 'f'] : List Char) ++ (cs.flatMap escChar ++ quoteC :: rest) =
        bslashC :: 'f' :: (cs.flatMap escChar ++ quoteC :: rest) from rfl]
      rw [psc_esc12, hih]
      rfl
    by_cases h7 : c = Char.ofNat 13
    · subst h7
      rw [show escChar (Char.ofNat 13) = [bslashC, 'r'] from rfl]
      rw [show ([bslashC, 'r'] : List Char) ++ (cs.flatMap escChar ++ quoteC :: rest) =
        bslashC :: 'r' :: (cs.flatMap escChar ++ quoteC :: rest) from rfl]
      rw [psc_esc13, hih]
      rfl
    by_cases h8 : c.toNat < 32
    · have hesc : escChar c = [bslashC, 'u', '0', '0', hexDigitChar (c.toNat / 16),
          hexDigitChar (c.toNat % 16)] := by
        unfold escChar
        rw [if_neg h1, if_neg h2, if_neg h3, if_neg h4, if_neg h5, if_neg h6, if_neg h7,
          if_pos h8]
      rw [hesc]
      rw [show ([bslashC, 'u', '0', '0', hexDigitChar (c.toNat / 16),
          hexDigitChar (c.toNat % 16)] : List Char) ++ (cs.flatMap escChar ++ quoteC :: rest) =
        bslashC :: 'u' :: '0' :: '0' :: hexDigitChar (c.toNat / 16) ::
          hexDigitChar (c.toNat % 16) :: (cs.flatMap escChar ++ quoteC :: rest) from rfl]
      rw [psc_escu f _ _ (c.toNat / 16) (c.toNat % 16) _
        (hexVal_hexDigitChar _ (by omega))
        (hexVal_hexDigitChar _ (Nat.mod_lt _ (by omega))), hih]
      have harith : ((0 * 16 + 0) * 16 + c.toNat / 16) * 16 + c.toNat % 16 = c.toNat := by
        omega
      rw [harith, Char.ofNat_toNat]
      rfl
    · have hesc : escChar c = [c] := by
        unfold escChar
        rw [if_neg h1, if_neg h2, if_neg h3, if_neg h4, if_neg h5, if_neg h6, if_neg h7,
          if_neg h8]
      rw [hesc]
      rw [show ([c] : List Char) ++ (cs.flatMap escChar ++ quoteC :: rest) =
        c :: (cs.flatMap escChar ++ quoteC :: rest) from rfl]
      rw [psc_verb f c _ h1 h2 h8, hih]
      rfl

/-- The digit string of a number starts with a digit. -/
theorem serNumAbs_shape (a s : Nat) :
    ∃ c t, serNumAbs a s = c :: t ∧ isDigitC c = true := by
  unfold serNumAbs
  dsimp only
  have hne := natDigits_ne_nil a
  have hdlen : 1 ≤ (natDigits a).length := by
    rcases h : natDigits a with _ | ⟨c, t⟩
    · exact absurd h hne
    · simp
  have hdig : ∀ c ∈ (if (natDigits a).length < s + 1 then
      List.replicate (s + 1 - (natDigits a).length) '0' ++ natDigits a else natDigits a),
      isDigitC c = true := by
    split
    · intro c hc
      rcases List.mem_append.1 hc with h | h
      · rw [List.eq_of_mem_replicate h]
        decide
      · exact natDigits_digits a c h
    · exact natDigits_digits a
  have hlen : s + 1 ≤ (if (natDigits a).length < s + 1 then
      List.replicate (s + 1 - (natDigits a).length) '0' ++ natDigits a
      else natDigits a).length := by
    split
    · rename_i hlt
      simp
      omega
    · rename_i hge
      omega
  by_cases hs : s = 0
  · subst hs
    rw [if_pos rfl]
    rcases hp : (if (natDigits a).length < 0 + 1 then
        List.replicate (0 + 1 - (natDigits a).length) '0' ++ natDigits a
        else natDigits a) with _ | ⟨c, t⟩
    · rw [hp] at hlen
      simp at hlen
    · exact ⟨c, t, rfl, hdig c (by rw [hp]; simp)⟩
  · rw [if_neg hs]
    have htlen : 1 ≤ ((if (natDigits a).length < s + 1 then
        List.replicate (s + 1 - (natDigits a).length) '0' ++ natDigits a
        else natDigits a).take
          ((if (natDigits a).length < s + 1 then
            List.replicate (s + 1 - (natDigits a).length) '0' ++ natDigits a
            else natDigits a).length - s)).length := by
      rw [List.length_take]
      omega
    rcases hp : (if (natDigits a).length < s + 1 then
        List.replicate (s + 1 - (natDigits a).length) '0' ++ natDigits a
        else natDigits a).take
          ((if (natDigits a).length < s + 1 then
            List.replicate (s + 1 - (natDigits a).length) '0' ++ natDigits a
            else natDigits a).length - s) with _ | ⟨c, t⟩
    · rw [hp] at htlen
      simp at htlen
    · refine ⟨c, t ++ '.' ::
        ((if (natDigits a).length < s + 1 then
          List.replicate (s + 1 - (natDigits a).length) '0' ++ natDigits a
          else natDigits a).drop
            ((if (natDigits a).length < s + 1 then
              List.replicate (s + 1 - (natDigits a).length) '0' ++ natDigits a
              else natDigits a).length - s)), by simp, ?_⟩
      have : c ∈ (if (natDigits a).length < s + 1 then
          List.replicate (s + 1 - (natDigits a).length) '0' ++ natDigits a
          else natDigits a) := by
        apply List.take_subset
        rw [hp]
        simp
      exact hdig c this

/-- Every serialized value starts with a non-whitespace character that
is not a closing bracket. -/
theorem serVal_shape (v : JValue) :
    ∃ c t, serVal v = c :: t ∧ isJsonWs c = false ∧ c ≠ rbrackC := by
  cases v with
  | null => exact ⟨'n', _, rfl, by decide, by decide⟩
  | bool b =>
    cases b
    · exact ⟨'f', _, rfl, by decide, by decide⟩
    · exact ⟨'t', _, rfl, by decide, by decide⟩
  | num n =>
    show ∃ c t, serNum n = c :: t ∧ isJsonWs c = false ∧ c ≠ rbrackC
    unfold serNum
    by_cases hm : n.mant < 0
    · rw [if_pos hm]
      exact ⟨'-', _, rfl, by decide, by decide⟩
    · rw [if_neg hm]
      obtain ⟨d, t, hdt, hd⟩ := serNumAbs_shape n.mant.natAbs n.scale
      refine ⟨d, t, by rw [List.nil_append, hdt], ?_, ?_⟩
      · exact (digit_not_special d hd).2.2.2.2.2.2.2.1
      · exact (digit_not_special d hd).2.2.2.2.2.2.2.2.1
  | str s => exact ⟨quoteC, _, rfl, by decide, by decide⟩
  | arr l =>
    cases l
    · exact ⟨lbrackC, _, rfl, by decide, by decide⟩
    · exact ⟨lbrackC, _, rfl, by decide, by decide⟩
  | obj l =>
    cases l
    · exact ⟨lbraceC, _, rfl, by decide, by decide⟩
    · rename_i kv kvs
      obtain ⟨k, v⟩ := kv
      exact ⟨lbraceC, _, rfl, by decide, by decide⟩

/-- `parseVal` ignores a leading whitespace character. -/
theorem parseVal_ws (fuel : Nat) (c : Char) (cs : List Char) (h : isJsonWs c = true) :
    parseVal fuel (c :: cs) = parseVal fuel cs := by
  cases fuel with
  | zero => rfl
  | succ f =>
    rw [parseVal.eq_def]
    conv_rhs => rw [parseVal.eq_def]
    dsimp only
    rw [skipWs_cons_pos c cs h]

/-- `parseMember` ignores a leading whitespace character. -/
theorem parseMember_ws (fuel : Nat) (c : Char) (cs : List Char) (h : isJsonWs c = true) :
    parseMember fuel (c :: cs) = parseMember fuel cs := by
  cases fuel with
  | zero => rfl
  | succ f =>
    rw [parseMember.eq_def]
    conv_rhs => rw [parseMember.eq_def]
    dsimp only
    rw [skipWs_cons_pos c cs h]

/-- The serialized tail of an array is number-safe input. -/
theorem numSafe_serItemsRest (l : List JValue) (rest : List Char) :
    numSafe (serItemsRest l ++ rbrackC :: rest) = true := by
  cases l <;> rfl

/-- The serialized tail of an object is number-safe input. -/
theorem numSafe_serMembersRest (l : List (String × JValue)) (rest : List Char) :
    numSafe (serMembersRest l ++ rbraceC :: rest) = true := by
  rcases l with _ | ⟨⟨k, v⟩, kvs⟩ <;> rfl

/-- `parseVal` at an opening quote. -/
theorem parseVal_quote (f : Nat) (cs : List Char) :
    parseVal (f + 1) (quoteC :: cs) =
      match parseStrChars f cs with
      | some (sl, r) => some (.str (String.mk sl), r)
      | none => none := rfl

/-- `parseVal` at an object whose first member starts immediately. -/
theorem parseVal_lbrace_quote (f : Nat) (cs : List Char) :
    parseVal (f + 1) (lbraceC :: quoteC :: cs) =
      match parseMember f (quoteC :: cs) with
      | some (kv, r3) =>
        match parseMembersMore f r3 with
        | some (kvs, r4) => some (.obj (kv :: kvs), r4)
        | none => none
      | none => none := rfl

/-- `parseVal` at a nonempty array literal. -/
theorem parseVal_lbrack_cons (f : Nat) (c2 : Char) (cs : List Char)
    (h2 : isJsonWs c2 = false) (hne : c2 ≠ rbrackC) :
    parseVal (f + 1) (lbrackC :: c2 :: cs) =
      match parseVal f (c2 :: cs) with
      | some (v, r3) =>
        match parseItemsMore f r3 with
        | some (vs, r4) => some (.arr (v :: vs), r4)
        | none => none
      | none => none := by
  rw [parseVal.eq_def]
  dsimp only
  rw [show skipWs (lbrackC :: c2 :: cs) = lbrackC :: c2 :: cs from
    skipWs_cons_neg _ _ (by decide)]
  dsimp only
  rw [if_neg (by decide : ¬ lbrackC = quoteC), if_neg (by decide : ¬ lbrackC = lbraceC),
    if_pos rfl]
  rw [skipWs_cons_neg c2 cs h2]
  dsimp only
  rw [if_neg hne]

/-- `parseVal` at a negative number. -/
theorem parseVal_minus (f : Nat) (cs : List Char) :
    parseVal (f + 1) ('-' :: cs) =
      match parseNumAbs cs with
      | some (n, r) => some (.num ⟨-n.mant, n.scale⟩, r)
      | none => none := rfl

/-- `parseVal` at a leading digit. -/
theorem parseVal_digit (f : Nat) (d : Char) (cs : List Char) (hd : isDigitC d = true) :
    parseVal (f + 1) (d :: cs) =
      match parseNumAbs (d :: cs) with
      | some (n, r) => some (.num n, r)
      | none => none := by
  obtain ⟨h1, h2, h3, h4, h5, h6, h7, h8, _h9, _h10⟩ := digit_not_special d hd
  rw [parseVal.eq_def]
  dsimp only
  rw [skipWs_cons_neg d cs h8]
  dsimp only
  rw [if_neg h1, if_neg h2, if_neg h3, if_neg h4, if_neg h5, if_neg h6, if_neg h7, if_pos hd]

/-- `parseItemsMore` at a closing bracket. -/
theorem parseItemsMore_rbrack (f : Nat) (cs : List Char) :
    parseItemsMore (f + 1) (rbrackC :: cs) = some ([], cs) := rfl

/-- `parseItemsMore` at a comma. -/
theorem parseItemsMore_comma (f : Nat) (cs : List Char) :
    parseItemsMore (f + 1) (',' :: cs) =
      match parseVal f cs with
      | some (v, r1) =>
        match parseItemsMore f r1 with
        | some (vs, r2) => some (v :: vs, r2)
        | none => none
      | none => none := rfl

/-- `parseMembersMore` at a closing brace. -/
theorem parseMembersMore_rbrace (f : Nat) (cs : List Char) :
    parseMembersMore (f + 1) (rbraceC :: cs) = some ([], cs) := rfl

/-- `parseMembersMore` at a comma. -/
theorem parseMembersMore_comma (f : Nat) (cs : List Char) :
    parseMembersMore (f + 1) (',' :: cs) =
      match parseMember f cs with
      | some (kv, r1) =>
        match parseMembersMore f r1 with
        | some (kvs, r2) => some (kv :: kvs, r2)
        | none => none
      | none => none := rfl

/-- A serialized number parses back to itself. -/
theorem parseVal_serNum (n : JNum) (f : Nat) (rest : List Char) (hr : numSafe rest = true) :
    parseVal (f + 1) (serNum n ++ rest) = some (.num n, rest) := by
  unfold serNum
  by_cases hm : n.mant < 0
  · rw [if_pos hm]
    rw [show ('-' :: []) ++ serNumAbs n.mant.natAbs n.scale ++ rest =
      '-' :: (serNumAbs n.mant.natAbs n.scale ++ rest) by simp]
    rw [parseVal_minus, parseNumAbs_serNumAbs _ _ _ hr]
    dsimp only
    have hmn : -((n.mant.natAbs : Int)) = n.mant := by omega
    rw [hmn]
  · rw [if_neg hm]
    obtain ⟨d, t, hdt, hd⟩ := serNumAbs_shape n.mant.natAbs n.scale
    rw [List.nil_append, hdt]
    rw [show (d :: t) ++ rest = d :: (t ++ rest) by simp]
    rw [parseVal_digit _ _ _ hd]
    rw [show d :: (t ++ rest) = serNumAbs n.mant.natAbs n.scale ++ rest by rw [hdt]; simp]
    rw [parseNumAbs_serNumAbs _ _ _ hr]
    dsimp only
    have hmn : ((n.mant.natAbs : Int)) = n.mant := by omega
    rw [hmn]

/-- Escaping a character yields at least one character. -/
theorem escChar_length_pos (c : Char) : 1 ≤ (escChar c).length := by
  unfold escChar
  repeat' split
  all_goals simp

/-- Escaping cannot shrink a string. -/
theorem length_le_flatMap (l : List Char) : l.length ≤ (l.flatMap escChar).length := by
  induction l with
  | nil => simp
  | cons c cs ih =>
    have h1 := escChar_length_pos c
    rw [show (c :: cs).flatMap escChar = escChar c ++ cs.flatMap escChar from rfl]
    simp only [List.length_cons, List.length_append]
    omega

mutual

/-- The fuel bound of a value is within its serialized length plus one. -/
theorem jfuel_le_serVal (v : JValue) : jfuel v ≤ (serVal v).length + 1 := by
  cases v with
  | null => decide
  | bool b => cases b <;> decide
  | num n =>
    simp only [jfuel]
    omega
  | str s =>
    have h := length_le_flatMap s.toList
    have hs : s.length = s.toList.length := rfl
    simp only [jfuel, serVal, serStr, List.length_cons, List.length_append, List.length_nil]
    omega
  | arr l =>
    cases l with
    | nil => decide
    | cons v vs =>
      have h1 := jfuel_le_serVal v
      have h2 := jfuelItems_le vs
      simp only [jfuel, jfuelItems, serVal, List.length_cons, List.length_append,
        List.length_nil]
      omega
  | obj l =>
    cases l with
    | nil => decide
    | cons kv kvs =>
      obtain ⟨k, v⟩ := kv
      have h1 := jfuel_le_serVal v
      have h2 := jfuelMembers_le kvs
      have h3 := length_le_flatMap k.toList
      have hk : k.length = k.toList.length := rfl
      simp only [jfuel, jfuelMembers, serVal, serMember, serStr, List.length_cons,
        List.length_append, List.length_nil]
      omega

/-- The fuel bound of an array tail is within its serialized length plus one. -/
theorem jfuelItems_le (l : List JValue) : jfuelItems l ≤ (serItemsRest l).length + 1 := by
  cases l with
  | nil => decide
  | cons v vs =>
    have h1 := jfuel_le_serVal v
    have h2 := jfuelItems_le vs
    simp only [jfuelItems, serItemsRest, List.length_cons, List.length_append, List.length_nil]
    omega

/-- The fuel bound of an object tail is within its serialized length plus one. -/
theorem jfuelMembers_le (l : List (String × JValue)) :
    jfuelMembers l ≤ (serMembersRest l).length + 1 := by
  cases l with
  | nil => decide
  | cons kv kvs =>
    obtain ⟨k, v⟩ := kv
    have h1 := jfuel_le_serVal v
    have h2 := jfuelMembers_le kvs
    have h3 := length_le_flatMap k.toList
    have hk : k.length = k.toList.length := rfl
    simp only [jfuelMembers, serMembersRest, serMember, serStr, List.length_cons,
      List.length_append, List.length_nil]
    omega

end

mutual

/-- A serialized value followed by number-safe input parses back to the
value, leaving exactly that input. -/
theorem parse_serVal (v : JValue) : ∀ (fuel : Nat) (rest : List Char),
    jfuel v ≤ fuel → numSafe rest = true →
    parseVal fuel (serVal v ++ rest) = some (v, rest) := by
  cases v with
  | null =>
    intro fuel rest hf _hr
    rcases fuel with _ | f
    · exact absurd hf (by decide)
    · rfl
  | bool b =>
    intro fuel rest hf _hr
    rcases fuel with _ | f
    · exact absurd hf (by cases b <;> decide)
    · cases b <;> rfl
  | num n =>
    intro fuel rest hf hr
    rcases fuel with _ | f
    · exact absurd hf (by simp only [jfuel]; omega)
    · exact parseVal_serNum n f rest hr
  | str s =>
    intro fuel rest hf _hr
    rcases fuel with _ | f
    · exact absurd hf (by simp only [jfuel]; omega)
    · have hlen : s.toList.length + 1 ≤ f := by
        have hs : s.toList.length = s.length := rfl
        rw [hs]
        simp only [jfuel] at hf
        omega
      rw [show serVal (.str s) ++ rest =
        quoteC :: (s.toList.flatMap escChar ++ quoteC :: rest) by
          simp only [serVal, serStr]; simp]
      rw [parseVal_quote, parseStrChars_escape s.toList f rest hlen]
      dsimp only
      rw [string_mk_toList]
  | arr l =>
    cases l with
    | nil =>
      intro fuel rest hf _hr
      rcases fuel with _ | f
      · exact absurd hf (by decide)
      · rfl
    | cons v vs =>
      intro fuel rest hf _hr
      rcases fuel with _ | f
      · exact absurd hf (by simp only [jfuel]; omega)
      · simp only [jfuel, jfuelItems] at hf
        obtain ⟨c, t, hct, hcw, hcb⟩ := serVal_shape v
        rw [show serVal (.arr (v :: vs)) ++ rest =
          lbrackC :: c :: (t ++ (serItemsRest vs ++ rbrackC :: rest)) by
            simp only [serVal]; rw [hct]; simp]
        rw [parseVal_lbrack_cons f c _ hcw hcb]
        rw [show c :: (t ++ (serItemsRest vs ++ rbrackC :: rest)) =
          serVal v ++ (serItemsRest vs ++ rbrackC :: rest) by rw [hct]; simp]
        rw [parse_serVal v f _ (by omega) (numSafe_serItemsRest vs rest)]
        dsimp only
        rw [parse_serItems vs f rest (by omega)]
  | obj l =>
    cases l with
    | nil =>
      intro fuel rest hf _hr
      rcases fuel with _ | f
      · exact absurd hf (by decide)
      · rfl
    | cons kv kvs =>
      obtain ⟨k, v⟩ := kv
      intro fuel rest hf _hr
      rcases fuel with _ | f
      · exact absurd hf (by simp only [jfuel]; omega)
      · simp only [jfuel, jfuelMembers] at hf
        rw [show serVal (.obj ((k, v) :: kvs)) ++ rest =
          lbraceC :: quoteC :: (k.toList.flatMap escChar ++ quoteC ::
            (':' :: ' ' :: (serVal v ++ (serMembersRest kvs ++ rbraceC :: rest)))) by
            simp only [serVal, serMember, serStr]; simp]
        rw [parseVal_lbrace_quote]
        rw [show (quoteC :: (k.toList.flatMap escChar ++ quoteC ::
            (':' :: ' ' :: (serVal v ++ (serMembersRest kvs ++ rbraceC :: rest))))
              : List Char) =
          serMember (k, v) ++ (serMembersRest kvs ++ rbraceC :: rest) by
            simp only [serMember, serStr]; simp]
        rw [parse_serMember k v f _ (by omega) (by omega)
          (numSafe_serMembersRest kvs rest)]
        dsimp only
        rw [parse_serMembers kvs f rest (by omega)]
termination_by sizeOf v

/-- A serialized object member followed by number-safe input parses
back to the member. -/
theorem parse_serMember (k : String) (v : JValue) : ∀ (fuel : Nat) (rest : List Char),
    k.length + 2 ≤ fuel → jfuel v + 1 ≤ fuel → numSafe rest = true →
    parseMember fuel (serMember (k, v) ++ rest) = some ((k, v), rest) := by
  intro fuel rest hk hv hr
  rcases fuel with _ | f
  · exact absurd hk (by omega)
  · have hlen : k.toList.length + 1 ≤ f := by
      have hs : k.toList.length = k.length := rfl
      rw [hs]
      omega
    rw [show serMember (k, v) ++ rest =
      quoteC :: (k.toList.flatMap escChar ++ quoteC ::
        (':' :: ' ' :: (serVal v ++ rest))) by
        simp only [serMember, serStr]; simp]
    rw [parseMember.eq_def]
    dsimp only
    rw [skipWs_cons_neg _ _ (by decide)]
    dsimp only
    rw [if_pos rfl]
    rw [parseStrChars_escape k.toList f _ hlen]
    dsimp only
    rw [skipWs_cons_neg _ _ (by decide)]
    dsimp only
    rw [if_pos rfl]
    rw [parseVal_ws f ' ' _ (by decide)]
    rw [parse_serVal v f rest (by omega) hr]
    dsimp only
    rw [string_mk_toList]
termination_by sizeOf v + 1

/-- A serialized array tail closed by a bracket parses back to the tail
elements. -/
theorem parse_serItems (l : List JValue) : ∀ (fuel : Nat) (rest : List Char),
    jfuelItems l ≤ fuel →
    parseItemsMore fuel (serItemsRest l ++ rbrackC :: rest) = some (l, rest) := by
  cases l with
  | nil =>
    intro fuel rest hf
    rcases fuel with _ | f
    · exact absurd hf (by decide)
    · exact parseItemsMore_rbrack f rest
  | cons v vs =>
    intro fuel rest hf
    rcases fuel with _ | f
    · exact absurd hf (by simp only [jfuelItems]; omega)
    · simp only [jfuelItems] at hf
      rw [show serItemsRest (v :: vs) ++ rbrackC :: rest =
        ',' :: (' ' :: (serVal v ++ (serItemsRest vs ++ rbrackC :: rest))) by
          simp only [serItemsRest]; simp]
      rw [parseItemsMore_comma]
      rw [parseVal_ws f ' ' _ (by decide)]
      rw [parse_serVal v f _ (by omega) (numSafe_serItemsRest vs rest)]
      dsimp only
      rw [parse_serItems vs f rest (by omega)]
termination_by sizeOf l

/-- A serialized object tail closed by a brace parses back to the tail
members. -/
theorem parse_serMembers (l : List (String × JValue)) : ∀ (fuel : Nat) (rest : List Char),
    jfuelMembers l ≤ fuel →
    parseMembersMore fuel (serMembersRest l ++ rbraceC :: rest) = some (l, rest) := by
  cases l with
  | nil =>
    intro fuel rest hf
    rcases fuel with _ | f
    · exact absurd hf (by decide)
    · exact parseMembersMore_rbrace f rest
  | cons kv kvs =>
    obtain ⟨k, v⟩ := kv
    intro fuel rest hf
    rcases fuel with _ | f
    · exact absurd hf (by simp only [jfuelMembers]; omega)
    · simp only [jfuelMembers] at hf
      rw [show serMembersRest ((k, v) :: kvs) ++ rbraceC :: rest =
        ',' :: (' ' :: (serMember (k, v) ++ (serMembersRest kvs ++ rbraceC :: rest))) by
          simp only [serMembersRest]; simp]
      rw [parseMembersMore_comma]
      rw [parseMember_ws f ' ' _ (by decide)]
      rw [parse_serMember k v f _ (by omega) (by omega)
        (numSafe_serMembersRest kvs rest)]
      dsimp only
      rw [parse_serMembers kvs f rest (by omega)]
termination_by sizeOf l

end

/-- `json.loads` inverts the canonical serializer. -/
theorem jsonParseL_serVal (v : JValue) : jsonParseL (serVal v) = some v := by
  unfold jsonParseL
  have h := parse_serVal v ((serVal v).length + 1) [] (jfuel_le_serVal v) rfl
  rw [List.append_nil] at h
  rw [h]
  rfl

/-- A serialized object is an opening brace, a middle, and a closing
brace. -/
theorem serObj_shape (d : List (String × JValue)) :
    ∃ mid, serVal (.obj d) = lbraceC :: (mid ++ [rbraceC]) := by
  cases d with
  | nil => exact ⟨[], rfl⟩
  | cons kv kvs =>
    refine ⟨serMember kv ++ serMembersRest kvs, ?_⟩
    simp only [serVal]
    simp

/-- `str.strip()` leaves a brace-delimited text unchanged. -/
theorem pyStripL_brace (mid : List Char) :
    pyStripL (lbraceC :: (mid ++ [rbraceC])) = lbraceC :: (mid ++ [rbraceC]) := by
  unfold pyStripL
  rw [show (lbraceC :: (mid ++ [rbraceC])).dropWhile isPyWs
      = lbraceC :: (mid ++ [rbraceC]) by
    simp [List.dropWhile, show isPyWs lbraceC = false from by decide]]
  rw [show (lbraceC :: (mid ++ [rbraceC])).reverse
      = rbraceC :: (mid.reverse ++ [lbraceC]) by simp]
  rw [show (rbraceC :: (mid.reverse ++ [lbraceC])).dropWhile isPyWs
      = rbraceC :: (mid.reverse ++ [lbraceC]) by
    simp [List.dropWhile, show isPyWs rbraceC = false from by decide]]
  simp

/-- The first opening brace of a brace-headed text is at index 0. -/
theorem findSubIdx_head_lbrace (l : List Char) :
    findSubIdx [lbraceC] (lbraceC :: l) = some 0 := by
  simp [findSubIdx, listStarts]

/-- The first closing brace of a brace-headed text is at index 0. -/
theorem findSubIdx_head_rbrace (l : List Char) :
    findSubIdx [rbraceC] (rbraceC :: l) = some 0 := by
  simp [findSubIdx, listStarts]

/-- The greedy brace span of a serialized object is the whole text. -/
theorem braceSlice_serObj (d : List (String × JValue)) :
    braceSlice (serVal (.obj d)) = some (serVal (.obj d)) := by
  obtain ⟨mid, hmid⟩ := serObj_shape d
  rw [hmid]
  unfold braceSlice
  rw [findSubIdx_head_lbrace]
  rw [show (lbraceC :: (mid ++ [rbraceC])).reverse
      = rbraceC :: (mid.reverse ++ [lbraceC]) by simp]
  rw [findSubIdx_head_rbrace]
  dsimp only
  have hL : (lbraceC :: (mid ++ [rbraceC])).length = mid.length + 2 := by simp
  rw [hL]
  rw [if_pos (by omega : (0 : Nat) < mid.length + 2 - 1 - 0)]
  rw [List.drop_zero]
  rw [show mid.length + 2 - 1 - 0 - 0 + 1 = mid.length + 2 from by omega]
  rw [show (lbraceC :: (mid ++ [rbraceC])).take (mid.length + 2)
      = lbraceC :: (mid ++ [rbraceC]) by
    rw [← hL]
    exact List.take_length _]

/-- A marker-free serialized object flows through the brace-span
fallback of `_extract_json_from_message` and parses back exactly, with
the combined text unchanged. -/
theorem extract_serObj (d : List (String × JValue))
    (hm : containsSub startMarker (serVal (.obj d)) = false) :
    extract_json_from_text (String.mk (serVal (.obj d))) =
      (some (.obj d), String.mk (serVal (.obj d))) := by
  obtain ⟨mid, hmid⟩ := serObj_shape d
  have hstrip : pyStripL (serVal (.obj d)) = serVal (.obj d) := by
    rw [hmid]
    exact pyStripL_brace mid
  have hnone : findSubIdx startMarker (serVal (.obj d)) = none := by
    unfold containsSub at hm
    rcases h : findSubIdx startMarker (serVal (.obj d)) with _ | i
    · rfl
    · rw [h] at hm
      simp at hm
  have hem : extractMarked (serVal (.obj d)) = none := by
    unfold extractMarked
    rw [hnone]
  unfold extract_json_from_text
  rw [show (String.mk (serVal (.obj d))).toList = serVal (.obj d) from rfl]
  rw [hstrip]
  dsimp only
  rw [hem]
  dsimp only
  rw [braceSlice_serObj]
  dsimp only
  rw [jsonParseL_serVal]

/-- Field completion is the identity on a fully-populated PDF record. -/
theorem ensureComplete_pdf (r : PdfRecord) : ensureComplete r.toJ false = r.toJ := rfl

/-- Field completion is the identity on a fully-populated IMAGE record. -/
theorem ensureComplete_img (r : ImageRecord) : ensureComplete r.toJ true = r.toJ := rfl

/-- C9 counterexample: a valid, fully-populated PDF record whose
explanation embeds the literal extraction markers serializes to text in
which the marker regex fires inside the JSON string literal, so
extraction followed by field completion yields the completion of the
inner empty object instead of the original record. -/
theorem c9_marker_breaks_roundtrip :
    c9CeRecord.Valid ∧
      extractCompleteRoundtrip (String.mk (serVal (.obj c9CeRecord.toJ))) false ≠
        some c9CeRecord.toJ := by
  constructor
  · exact ⟨Or.inl rfl, ⟨by decide, by decide⟩, by decide, by decide⟩
  · intro h
    rw [show extractCompleteRoundtrip (String.mk (serVal (.obj c9CeRecord.toJ))) false =
      some (ensureComplete [] false) from rfl] at h
    exact absurd (congrArg List.length (Option.some.inj h)) (by decide)

/-- C9 (amended): for every valid fully-populated PDF record and IMAGE
record whose serialized JSON text does not contain the literal start
marker, structured extraction on that text followed by field completion
for the matching review type recovers exactly the original record. -/
theorem c9_roundtrip_amended :
    (∀ r : PdfRecord, r.Valid →
      containsSub startMarker (serVal (.obj r.toJ)) = false →
      extractCompleteRoundtrip (String.mk (serVal (.obj r.toJ))) false = some r.toJ) ∧
    (∀ r : ImageRecord, r.Valid →
      containsSub startMarker (serVal (.obj r.toJ)) = false →
      extractCompleteRoundtrip (String.mk (serVal (.obj r.toJ))) true = some r.toJ) := by
  constructor
  · intro r _hv hm
    unfold extractCompleteRoundtrip
    rw [extract_serObj r.toJ hm]
    dsimp only
    rw [ensureComplete_pdf]
  · intro r _hv hm
    unfold extractCompleteRoundtrip
    rw [extract_serObj r.toJ hm]
    dsimp only
    rw [ensureComplete_img]

/-- C9 witness: the amended round-trip instantiated at concrete
marker-free PDF and IMAGE records. -/
theorem c9_roundtrip_amended_witness :
    extractCompleteRoundtrip (String.mk (serVal (.obj c9WitnessPdf.toJ))) false =
        some c9WitnessPdf.toJ ∧
      extractCompleteRoundtrip (String.mk (serVal (.obj c9WitnessImg.toJ))) true =
        some c9WitnessImg.toJ :=
  ⟨c9_roundtrip_amended.1 c9WitnessPdf
      ⟨Or.inl rfl, ⟨by decide, by decide⟩, by decide, by decide⟩ rfl,
   c9_roundtrip_amended.2 c9WitnessImg
      ⟨Or.inr rfl, ⟨by decide, by decide⟩, by decide⟩ rfl⟩
